import Mathlib

/-!
Verification of the scene-synchronization core of the Tundra protocol module
(`src/Core/TundraProtocolModule/SyncManager.cpp`).

The development shallowly embeds the parts of `SyncManager.cpp` that the
claims are about: the tick-time rigid-body encode pass
(`ReplicateRigidBodyChanges`), the rigid-body receive pass
(`HandleRigidBodyChanges`), the generic message handlers
(`HandleEditAttributes`, `HandleEditEntityProperties`, `HandleSetEntityParent`,
`HandleCreateEntity`, `HandleCreateComponents`, `HandleEntityAction`), the
message-id dispatcher (`HandleNetworkMessage`), the attribute-edit encoding
choice, and the extrapolation-window configuration.

Floating-point values are embedded as rationals; the squared-distance and
squared-length comparisons of the source are preserved exactly.  External
calls that are pure mathematics on floats (Euler-angle to matrix conversion,
degree/radian conversion, float quantization) are supplied as oracle inputs
or configuration functions, so that the branch structure of the source is
kept intact.  Helper classes of the repository that are not part of the
provided sources (`SceneSyncState.cpp`, `UniqueIdGenerator.h`) are modelled
from the specification where noted.
-/

namespace Tundra

/-- Rational 3-vector standing for `float3` of the source. -/
structure Q3 where
  x : ℚ
  y : ℚ
  z : ℚ
deriving DecidableEq

/-- `float3::LengthSq`. -/
def Q3.lengthSq (v : Q3) : ℚ := v.x * v.x + v.y * v.y + v.z * v.z

/-- `float3::DistanceSq`. -/
def Q3.distanceSq (a b : Q3) : ℚ :=
  (a.x - b.x) * (a.x - b.x) + (a.y - b.y) * (a.y - b.y) + (a.z - b.z) * (a.z - b.z)

/-- `float3::IsZero(epsilonSq)`: true when the squared length is at most the
given squared epsilon. -/
def Q3.isZeroSq (v : Q3) (epsSq : ℚ) : Bool := decide (v.lengthSq ≤ epsSq)

/-- Componentwise absolute value, `float3::Abs`. -/
def Q3.abs3 (v : Q3) : Q3 := ⟨|v.x|, |v.y|, |v.z|⟩

/-- `float3::MaxElement`. -/
def Q3.maxElement (v : Q3) : ℚ := max v.x (max v.y v.z)

/-- `float3::MinElement`. -/
def Q3.minElement (v : Q3) : ℚ := min v.x (min v.y v.z)

/-- The zero vector, `float3::zero`. -/
def Q3.zero : Q3 := ⟨0, 0, 0⟩

/-- Bitmask helper: set bit `i` of `n` (models `mask |= 1 << i` of the
byte-array dirty bitmasks, with the byte array flattened to one bit index). -/
def setBit (n i : ℕ) : ℕ := if n.testBit i then n else n ^^^ 2 ^ i

/-- Bitmask helper: clear bit `i` of `n` (models `mask &= ~(1 << i)`). -/
def clearBit (n i : ℕ) : ℕ := if n.testBit i then n ^^^ 2 ^ i else n

/-!  ## Extrapolation-window configuration

`SyncManager::SyncManager` initializes `updatePeriod_(1.0f / 20.0f)` and
`maxLinExtrapTime_(3.0f)` and then calls `GetClientExtrapolationTime()`,
which overwrites `maxLinExtrapTime_` only when the
`--clientextrapolationtime` command-line parameter is present, parses as a
float and is non-negative. -/

/-- Default `updatePeriod_` of the constructor (`1.0f / 20.0f`). -/
def defaultUpdatePeriod : ℚ := 1 / 20

/-- Initial `maxLinExtrapTime_` of the constructor initializer list (`3.0f`). -/
def initMaxLinExtrapTime : ℚ := 3

/-- `SyncManager::GetClientExtrapolationTime`: `extrapTimeParam` is the parsed
`--clientextrapolationtime` parameter (`none` when absent or unparsable);
when present and non-negative, `maxLinExtrapTime_` becomes
`1.0 + newExtrapTime / 1000 / updatePeriod_`, otherwise it is left alone. -/
def getClientExtrapolationTime (extrapTimeParam : Option ℚ)
    (updatePeriod maxLinExtrapTime : ℚ) : ℚ :=
  match extrapTimeParam with
  | some ms => if 0 ≤ ms then 1 + ms / 1000 / updatePeriod else maxLinExtrapTime
  | none => maxLinExtrapTime

/-- The value of `maxLinExtrapTime_` right after `SyncManager::SyncManager`,
as a function of the `--clientextrapolationtime` parameter. -/
def syncManagerMaxLinExtrapTime (extrapTimeParam : Option ℚ) : ℚ :=
  getClientExtrapolationTime extrapTimeParam defaultUpdatePeriod initMaxLinExtrapTime

/-!  ## Message-id dispatch

`SyncManager::HandleNetworkMessage` dispatches on the message id with a
`switch` statement that has no `default` case; an id that matches no case
falls through silently.  A `kNet::NetException` raised by a handler is caught,
an error is logged and the offending connection is disconnected. -/

/-- The message ids with a `case` label in the `switch` of
`SyncManager::HandleNetworkMessage` (constants from `TundraMessages.h`). -/
def handledMessageId (messageId : ℕ) : Bool :=
  messageId == 105 || messageId == 110 || messageId == 111 || messageId == 112 ||
  messageId == 113 || messageId == 114 || messageId == 115 || messageId == 116 ||
  messageId == 117 || messageId == 118 || messageId == 119 || messageId == 109 ||
  messageId == 124 || messageId == 120 || messageId == 123

/-- Outcome of one `HandleNetworkMessage` invocation: whether some handler
ran, the warning log lines emitted by the dispatcher itself, the error log
lines, and whether the connection was disconnected. -/
structure DispatchResult where
  handled : Bool
  warnings : List ℕ
  errors : List ℕ
  disconnected : Bool
deriving DecidableEq

/-- `SyncManager::HandleNetworkMessage`, with the invoked handler abstracted
to whether it throws `kNet::NetException` (`handlerThrows`).  A message id
without a `case` label produces no log line and no disconnect. -/
def handleNetworkMessage (messageId : ℕ) (handlerThrows : Bool) : DispatchResult :=
  if handledMessageId messageId then
    if handlerThrows then
      { handled := true, warnings := [], errors := [messageId], disconnected := true }
    else
      { handled := true, warnings := [], errors := [], disconnected := false }
  else
    { handled := false, warnings := [], errors := [], disconnected := false }

/-!  ## Attribute-edit encoding choice

`SyncManager::ProcessSyncState` (edit-attributes part) serializes the changed
attributes of one component into a nested block, choosing between an
index-list layout and a bitmask layout by comparing
`bitsMethod1 = changedAttributes_.size() * 8 + 8` with
`bitsMethod2 = attrs.size()`; `SyncManager::HandleEditAttributes` decodes the
same block.  The serializer calls are embedded as a token stream: each
`Add<kNet::bit>` is a `Token.bit`, each `Add<u8>` a `Token.byte`, each
`ToBinary`/`FromBinary` of an attribute value a `Token.value`. -/

/-- One serializer call of the nested attribute block. -/
inductive Token where
  | bit (b : Bool)
  | byte (n : ℕ)
  | value (v : ℕ)
deriving DecidableEq

/-- `changedAttributes_` as computed from the per-attribute dirty bitmask:
the indices below the attribute count whose dirty bit is set (an index with a
set bit at or beyond the attribute count is discarded with an error log). -/
def changedAttributesOf (dirty numAttrs : ℕ) : List ℕ :=
  (List.range numAttrs).filter (fun i => dirty.testBit i)

/-- The nested attribute block written by `ProcessSyncState` for one
component: `attrs` are the component's attribute values, `dirty` its dirty
bitmask.  Method 1 (leading bit 0) writes a count and `(index, value)` pairs;
method 2 (leading bit 1) writes one presence bit per attribute followed by
the value when present. -/
def writeEditAttributes (attrs : List ℕ) (dirty : ℕ) : List Token :=
  let changed := changedAttributesOf dirty attrs.length
  let bitsMethod1 := changed.length * 8 + 8
  let bitsMethod2 := attrs.length
  if bitsMethod1 ≤ bitsMethod2 then
    Token.bit false :: Token.byte changed.length ::
      (changed.flatMap fun i => [Token.byte i, Token.value (attrs.getD i 0)])
  else
    Token.bit true ::
      ((List.range attrs.length).flatMap fun i =>
        if dirty.testBit i then [Token.bit true, Token.value (attrs.getD i 0)]
        else [Token.bit false])

/-- Index-list reader of `HandleEditAttributes`: reads `count` pairs
`(u8 index, value)`; an out-of-bounds index stops the component with a
warning (pairs already read stay applied); a malformed stream is a
`kNet::NetException` (`none`). -/
def readIndexItems (numAttrs : ℕ) : ℕ → List Token → Option (List (ℕ × ℕ))
  | 0, _ => some []
  | n + 1, Token.byte idx :: Token.value v :: rest =>
    if idx < numAttrs then
      match readIndexItems numAttrs n rest with
      | some acc => some ((idx, v) :: acc)
      | none => none
    else
      some []
  | _ + 1, _ => none

/-- Bitmask reader of `HandleEditAttributes`: for each attribute index one
presence bit then the value when present; running out of bits stops early
(component version tolerance). -/
def readBitmaskItems : List ℕ → List Token → Option (List (ℕ × ℕ))
  | [], _ => some []
  | _ :: _, [] => some []
  | i :: is, Token.bit true :: Token.value v :: rest =>
    match readBitmaskItems is rest with
    | some acc => some ((i, v) :: acc)
    | none => none
  | _ :: is, Token.bit false :: rest => readBitmaskItems is rest
  | _ :: _, _ => none

/-- The nested attribute block reader of `HandleEditAttributes`: reads the
indexing-method bit, then dispatches; returns the `(index, value)` pairs
applied to the component, in application order. -/
def readEditAttributes (numAttrs : ℕ) : List Token → Option (List (ℕ × ℕ))
  | Token.bit false :: Token.byte count :: rest => readIndexItems numAttrs count rest
  | Token.bit true :: rest => readBitmaskItems (List.range numAttrs) rest
  | _ => none

/-!  ## Entity-action fan-out

`SyncManager::HandleEntityAction`. -/

/-- `MsgEntityAction`: entity id, `execType` bitmask
(`Local = 1`, `Server = 2`, `Peers = 4`), action name and parameters
(abstracted to numbers). -/
structure ActionMsg where
  entityId : ℕ
  executionType : ℕ
  name : ℕ
  params : List ℕ
deriving DecidableEq

/-- A user connection as seen by the action fan-out: its id, the
`authenticated` property and its sync state's `queuedActions` FIFO. -/
structure ActConn where
  connId : ℕ
  authenticated : Bool
  queuedActions : List ActionMsg
deriving DecidableEq

/-- Result of `HandleEntityAction`: whether `entity->Exec(Local, ...)` ran,
the connection list after queueing, whether the message was handled, and
whether a warning was logged. -/
structure ActionResult where
  executedLocally : Bool
  conns : List ActConn
  handled : Bool
  warned : Bool
deriving DecidableEq

/-- `SyncManager::HandleEntityAction`: executes locally when the `Local` bit
is set or (on a server) the `Server` bit is set; when on a server the `Peers`
bit is set, pushes the message with `executionType` rewritten to `Local` into
the `queuedActions` of every connection other than the source. -/
def handleEntityAction (isServer entityExists : Bool) (conns : List ActConn)
    (sourceId : ℕ) (msg : ActionMsg) : ActionResult :=
  if !entityExists then
    ⟨false, conns, false, true⟩
  else
    let t := msg.executionType
    let execLoc := (t &&& 1 != 0) || (isServer && (t &&& 2 != 0))
    let peers := isServer && (t &&& 4 != 0)
    let conns' :=
      if peers then
        conns.map fun c =>
          if c.connId != sourceId then
            { c with queuedActions := c.queuedActions ++ [{ msg with executionType := 1 }] }
          else c
      else conns
    ⟨execLoc, conns', execLoc || peers, !(execLoc || peers)⟩

/-!  ## Rigid-body receive pass (`SyncManager::HandleRigidBodyChanges`)

One record of message 119 is embedded with its decoded values as fields (the
bit-level decode of positions, orientations and velocities is pure float
mathematics mirrored by `ReadOptimizedPosAndRot`/`ReadVector3D`); the
branch structure of the handler is kept intact.  The kNet packet-id
comparator is a parameter of the configuration, since kNet is an external
library. -/

/-- Componentwise sum. -/
def Q3.add (a b : Q3) : Q3 := ⟨a.x + b.x, a.y + b.y, a.z + b.z⟩

/-- Scalar multiple. -/
def Q3.smul (c : ℚ) (v : Q3) : Q3 := ⟨c * v.x, c * v.y, c * v.z⟩

/-- Dot product. -/
def Q3.dot (a b : Q3) : ℚ := a.x * b.x + a.y * b.y + a.z * b.z

/-- Cross product. -/
def Q3.cross (a b : Q3) : Q3 :=
  ⟨a.y * b.z - a.z * b.y, a.z * b.x - a.x * b.z, a.x * b.y - a.y * b.x⟩

/-- `float3::unitY`. -/
def Q3.unitY : Q3 := ⟨0, 1, 0⟩

/-- `HermiteDerivative` of `SyncManager.cpp`: tangent of the Hermite curve at
parameter `t`. -/
def hermiteDerivative (pos0 vel0 pos1 vel1 : Q3) (t : ℚ) : Q3 :=
  let tt := t * t
  let h1 := 6 * (tt - t)
  let h2 := -h1
  let h3 := 3 * tt - 4 * t + 1
  let h4 := 3 * tt - 2 * t
  (Q3.smul h1 pos0).add ((Q3.smul h2 pos1).add ((Q3.smul h3 vel0).add (Q3.smul h4 vel1)))

/-- One endpoint of `RigidBodyInterpolationState` (`interpStart`/`interpEnd`);
the orientation is an abstract payload. -/
structure InterpPoint where
  pos : Q3
  rot : ℕ
  scaleV : Q3
  vel : Q3
  angVel : Q3
deriving DecidableEq

/-- `RigidBodyInterpolationState`. -/
structure RBInterp where
  interpStart : InterpPoint
  interpEnd : InterpPoint
  interpTime : ℚ
  lastReceivedPacketCounter : ℕ
  interpolatorActive : Bool
deriving DecidableEq

/-- One decoded per-entity record of a RigidBodyUpdate message: the five
arithmetic-coded send types and the decoded values (`angVelQZero` is the
`quantizedAngle == 0` test of the angular-velocity axis-angle encoding). -/
structure RBWireRecord where
  entityId : ℕ
  posSendType : ℕ
  rotSendType : ℕ
  scaleSendType : ℕ
  velSendType : ℕ
  angVelSendType : ℕ
  pos : Q3
  rot : ℕ
  scaleV : Q3
  vel : Q3
  angVel : Q3
  angVelQZero : Bool
deriving DecidableEq

/-- The receiver's scene data for the entity a record refers to. -/
structure RBRecvEntity where
  present : Bool
  hasPlaceable : Bool
  origPos : Q3
  origRot : ℕ
  origScale : Q3
  hasRigid : Bool
  massPositive : Bool
  linVel : Q3
  angVel : Q3
deriving DecidableEq

/-- Receive-side configuration: whether the source connection runs over UDP
(`conn->GetSocket()->TransportLayer() == kNet::SocketOverUDP`), the kNet
packet-id comparator (`kNet::PacketIDIsNewerThan`, external library), and the
update period. -/
structure RBRecvCfg where
  udp : Bool
  newer : ℕ → ℕ → Bool
  updatePeriod : ℚ

/-- Association-list lookup by key. -/
def lookupById {α : Type} (l : List (ℕ × α)) (k : ℕ) : Option α :=
  match l.find? (fun p => p.1 == k) with
  | some p => some p.2
  | none => none

/-- Association-list store by key (replace or append). -/
def storeById {α : Type} (l : List (ℕ × α)) (k : ℕ) (v : α) : List (ℕ × α) :=
  if (l.find? (fun p => p.1 == k)).isSome then
    l.map (fun p => if p.1 == k then (k, v) else p)
  else l ++ [(k, v)]

/-- The per-record body of `SyncManager::HandleRigidBodyChanges`
(lines 1225-1353): updates (or creates) the entity's
`RigidBodyInterpolationState` in the receiving connection's sync state,
dropping the record when it arrived over UDP with a packet id older than
`lastReceivedPacketCounter`.  Returns the updated interpolation map; the
handler itself never writes the entity's transform (that is done later by
`InterpolateRigidBodies`). -/
def handleRigidBodyRecord (cfg : RBRecvCfg) (ent : RBRecvEntity)
    (interps : List (ℕ × RBInterp)) (packetId : ℕ) (w : RBWireRecord) :
    List (ℕ × RBInterp) :=
  let newLinearVel0 := if ent.hasRigid then ent.linVel else Q3.zero
  let newLinearVel1 :=
    match lookupById interps w.entityId with
    | some st => st.interpEnd.vel
    | none => newLinearVel0
  let newLinearVel := if w.velSendType != 0 then w.vel else newLinearVel1
  let newAngVel0 := if ent.hasRigid then ent.angVel else Q3.zero
  let newAngVel :=
    if w.angVelSendType == 1 && !w.angVelQZero then w.angVel else newAngVel0
  if !ent.present then interps
  else if w.posSendType != 0 || w.rotSendType != 0 || w.scaleSendType != 0 ||
      w.velSendType != 0 || w.angVelSendType != 0 then
    match lookupById interps w.entityId with
    | some interp =>
      if cfg.udp && cfg.newer interp.lastReceivedPacketCounter packetId then
        interps
      else
        let curVel :=
          if interp.interpTime < 1 then
            hermiteDerivative interp.interpStart.pos
              (Q3.smul cfg.updatePeriod interp.interpStart.vel)
              interp.interpEnd.pos
              (Q3.smul cfg.updatePeriod interp.interpEnd.vel)
              interp.interpTime
          else interp.interpEnd.vel
        let curAngVel := Q3.zero
        let isNewtonian := ent.hasRigid && ent.massPositive
        let interp' : RBInterp :=
          { interpStart :=
              { pos := ent.origPos
                rot := ent.origRot
                scaleV := ent.origScale
                vel := if isNewtonian then curVel else Q3.zero
                angVel := curAngVel }
            interpEnd :=
              { pos := if w.posSendType != 0 then w.pos else interp.interpEnd.pos
                rot := if w.rotSendType != 0 then w.rot else interp.interpEnd.rot
                scaleV := if w.scaleSendType != 0 then w.scaleV else interp.interpEnd.scaleV
                vel :=
                  if isNewtonian then
                    (if w.velSendType != 0 then newLinearVel else interp.interpEnd.vel)
                  else Q3.zero
                angVel := if w.angVelSendType != 0 then newAngVel else interp.interpEnd.angVel }
            interpTime := 0
            lastReceivedPacketCounter := packetId
            interpolatorActive := true }
        storeById interps w.entityId interp'
    | none =>
      let interp' : RBInterp :=
        { interpStart :=
            { pos := ent.origPos
              rot := ent.origRot
              scaleV := ent.origScale
              vel := if ent.hasRigid then ent.linVel else Q3.zero
              angVel := if ent.hasRigid then ent.angVel else Q3.zero }
          interpEnd :=
            { pos := if w.posSendType != 0 then w.pos else ent.origPos
              rot := if w.rotSendType != 0 then w.rot else ent.origRot
              scaleV := if w.scaleSendType != 0 then w.scaleV else ent.origScale
              vel := newLinearVel
              angVel := newAngVel }
          interpTime := 0
          lastReceivedPacketCounter := packetId
          interpolatorActive := true }
      storeById interps w.entityId interp'
  else interps

/-- Modelled from the spec: `kNet::PacketIDIsNewerThan`, the wraparound-aware
packet-id comparator of the external kNet library (not part of this
repository's sources); per the specification's testable property the
wraparound is at 16 bits: `a` is newer than `b` when they differ and the
wrapped difference `a - b` is in the lower half of the 16-bit range. -/
def packetIdIsNewerThan (a b : ℕ) : Bool :=
  ((a % 2 ^ 16 + 2 ^ 16 - b % 2 ^ 16) % 2 ^ 16 != 0) &&
    ((a % 2 ^ 16 + 2 ^ 16 - b % 2 ^ 16) % 2 ^ 16 < 2 ^ 15)

/-!  ## Rigid-body encode pass (`SyncManager::ReplicateRigidBodyChanges`)

One dirty-queue entry combines the `EntitySyncState` slice the pass reads and
writes (component sync states of `EC_Placeable` and `EC_RigidBody`, the
last-sent transform and velocities) with the scene-side data of the entity
(current transform, orientation matrix, current velocities), plus the
oracles the embedding needs for the float-only computations: `orient` stands
for `t.Orientation3x3()`, `rotAngleQZero`/`angVelAngleQZero` for the
`quantizedAngle == 0` tests of the axis-angle encodings, and `elapsed` for
`timeSinceLastSend >= ComputePrioritizedUpdateInterval(updatePeriod_)`. -/

/-- A 3x3 matrix given by columns (only columns 1 and 2 are consulted). -/
structure M3 where
  col0 : Q3
  col1 : Q3
  col2 : Q3
deriving DecidableEq

/-- `ComponentSyncState` slice used by the encode pass: the `isNew` and
`removed` flags and the dirty-attribute bitmask (byte array flattened to one
bit index per attribute). -/
structure CompBits where
  isNew : Bool
  removed : Bool
  bits : ℕ
deriving DecidableEq

/-- One dirty-queue entry of the encode pass (see the section comment). -/
structure RBEntry where
  id : ℕ
  isNew : Bool
  removed : Bool
  placeableComp : Option CompBits
  rigidComp : Option CompBits
  lastPos : Q3
  lastRot : Q3
  lastScale : Q3
  lastLinVel : Q3
  lastAngVel : Q3
  hasPlaceable : Bool
  pos : Q3
  rotE : Q3
  scaleV : Q3
  orient : M3
  hasRigid : Bool
  linVel : Q3
  angVelDeg : Q3
  rotAngleQZero : Bool
  angVelAngleQZero : Bool
  elapsed : Bool
deriving DecidableEq

/-- Encode-pass configuration: whether a prioritizer is installed
(`prioritizer_ != 0`) and the degree-to-radian conversion (float math). -/
structure RBSendCfg where
  imEnabled : Bool
  degToRad : Q3 → Q3

/-- `DetectPosSendType`: `0` omit, `2` full floats when some component's
absolute value reaches `1023`, else `1` compact. -/
def detectPosSendType (posChanged : Bool) (pos : Q3) : ℕ :=
  if posChanged then (if decide ((1023 : ℚ) ≤ pos.abs3.maxElement) then 2 else 1) else 0

/-- `DetectRotSendType`: `0` omit, `1` yaw only, `2` yaw and pitch, `3` full. -/
def detectRotSendType (rotChanged : Bool) (m : M3) : ℕ :=
  if rotChanged then
    let fwd := m.col2
    let up := m.col1
    let planeNormal := Q3.unitY.cross m.col2
    let d := planeNormal.dot m.col1
    if decide ((999 : ℚ) / 1000 ≤ up.dot Q3.unitY) then 1
    else if decide (|d| ≤ 1 / 1000) && decide (|fwd.dot Q3.unitY| < 95 / 100) &&
        decide (0 < up.dot Q3.unitY) then 2
    else 3
  else 0

/-- One per-entity record of an outgoing RigidBodyUpdate message: entity id,
the five send types, the written payloads and the quantized-angle-zero
oracles (which decide whether the axis follows the angle on the wire). -/
structure RBRec where
  id : ℕ
  posT : ℕ
  rotT : ℕ
  scaleT : ℕ
  velT : ℕ
  angT : ℕ
  pos : Q3
  scaleV : Q3
  linVel : Q3
  rotAngleQZero : Bool
  angVelAngleQZero : Bool
deriving DecidableEq

/-- Bit size of a `kNet::VLE8_16_32` value. -/
def vleBits (v : ℕ) : ℕ := if v < 2 ^ 7 then 8 else if v < 2 ^ 14 then 16 else 32

/-- Exact wire size in bits of one entity record, from the sizes the encoder
writes: VLE id, 8-bit arithmetic-coded header, 57 or 96 bits of position,
8/17/10/31 bits of orientation, 32 or 96 bits of scale, 32 or 39 bits of
linear velocity, 10 or 31 bits of angular velocity. -/
def recordBits (r : RBRec) : ℕ :=
  vleBits r.id + 8 +
    (if r.posT == 1 then 57 else if r.posT == 2 then 96 else 0) +
    (if r.rotT == 1 then 8 else if r.rotT == 2 then 17
      else if r.rotT == 3 then (if r.rotAngleQZero then 10 else 31) else 0) +
    (if r.scaleT == 1 then 32 else if r.scaleT == 2 then 96 else 0) +
    (if r.velT == 1 then 32 else if r.velT == 2 then 39 else 0) +
    (if r.angT == 1 then (if r.angVelAngleQZero then 10 else 31) else 0)

/-- The linear come-to-rest test of the encode pass: the current linear
velocity is zero within `1e-4` (squared-length test of `float3::IsZero`)
while the last-sent one is not. -/
def linCameToRest (q : RBEntry) : Bool :=
  q.linVel.isZeroSq (1 / 10000) && !(q.lastLinVel.isZeroSq (1 / 10000))

/-- The angular come-to-rest test of the encode pass. -/
def angCameToRest (q : RBEntry) : Bool :=
  q.angVelDeg.isZeroSq (1 / 10000) && !(q.lastAngVel.isZeroSq (1 / 10000))

/-- The full condition under which the loop body of
`ReplicateRigidBodyChanges` sets `msgReliable = true` for an entry: the entry
survives the new/removed and placeable guards, the rigid-body component and
its clean sync state are present, and one of the velocities came to rest. -/
def forcesReliable (q : RBEntry) : Bool :=
  !q.isNew && !q.removed && q.hasPlaceable && q.hasRigid &&
    (match q.rigidComp with
      | some c => !c.isNew && !c.removed
      | none => false) &&
    (linCameToRest q || angCameToRest q)

/-- The `transformDirty` computation of the encode pass: when the
`EC_Placeable` component sync state exists and is neither new nor removed,
read dirty bit 0 (the `Transform` attribute) and clear it. -/
def stealPlaceableBit : Option CompBits → Bool × Option CompBits
  | some c =>
    if !c.isNew && !c.removed then
      (c.bits.testBit 0, some { c with bits := clearBit c.bits 0 })
    else (false, some c)
  | none => (false, none)

/-- The velocity part of the encode pass: when the entity has an
`EC_RigidBody` and its component sync state is neither new nor removed, read
dirty bits 5 (linear velocity) and 6 (angular velocity), clear both, apply
the movement thresholds against the last-sent velocities, and compute the
come-to-rest forcing.  Returns
`(velocityDirty, angularVelocityDirty, forcesReliable, updated comp state)`. -/
def stealRigidBits (q : RBEntry) : Bool × Bool × Bool × Option CompBits :=
  if q.hasRigid then
    match q.rigidComp with
    | some c =>
      if !c.isNew && !c.removed then
        let vd := c.bits.testBit 5
        let ad := c.bits.testBit 6
        let cleared := clearBit (clearBit c.bits 5) 6
        let vd1 := vd && decide ((1 : ℚ) / 100 ≤ q.linVel.distanceSq q.lastLinVel)
        let ad1 := ad && decide ((1 : ℚ) / 10 ≤ q.angVelDeg.distanceSq q.lastAngVel)
        let fl := linCameToRest q
        let fa := angCameToRest q
        (vd1 || fl, ad1 || fa, fl || fa, some { c with bits := cleared })
      else (false, false, false, some c)
    | none => (false, false, false, none)
  else (false, false, false, q.rigidComp)

/-- The send-type detection of the encode pass for one entry: compares the
current transform against the last-sent one with the squared-distance
thresholds `1e-3` (position), `1e-1` (rotation), `1e-3` (scale), then detects
`(posT, rotT, scaleT, velT, angT)` exactly as the source does. -/
def computeSendTypes (cfg : RBSendCfg) (q : RBEntry)
    (transformDirty velocityDirty angularVelocityDirty : Bool) :
    ℕ × ℕ × ℕ × ℕ × ℕ :=
  let posChanged := transformDirty && decide ((1 : ℚ) / 1000 < q.pos.distanceSq q.lastPos)
  let rotChanged := transformDirty && decide ((1 : ℚ) / 10 < q.rotE.distanceSq q.lastRot)
  let scaleChanged :=
    transformDirty && decide ((1 : ℚ) / 1000 < q.scaleV.distanceSq q.lastScale)
  let posT := detectPosSendType posChanged q.pos
  let rotT := detectRotSendType rotChanged q.orient
  let scaleT :=
    if scaleChanged then
      (if decide (q.scaleV.abs3.maxElement - q.scaleV.abs3.minElement ≤ (1 : ℚ) / 1000)
        then 1 else 2)
    else 0
  let linV := if q.hasRigid then q.linVel else Q3.zero
  let velT :=
    if velocityDirty then (if decide ((64 : ℚ) ≤ linV.lengthSq) then 2 else 1) else 0
  let angT := if angularVelocityDirty then 1 else 0
  (posT, rotT, scaleT, velT, angT)

/-- The wire record built for one entry from its send types. -/
def mkRBRec (cfg : RBSendCfg) (q : RBEntry) (ts : ℕ × ℕ × ℕ × ℕ × ℕ) : RBRec :=
  { id := q.id, posT := ts.1, rotT := ts.2.1, scaleT := ts.2.2.1, velT := ts.2.2.2.1,
    angT := ts.2.2.2.2, pos := q.pos, scaleV := q.scaleV,
    linVel := if q.hasRigid then q.linVel else Q3.zero,
    rotAngleQZero := q.rotAngleQZero, angVelAngleQZero := q.angVelAngleQZero }

/-- The last-sent bookkeeping after a record is written: `ess.linearVelocity`
and `ess.angularVelocity` (the latter converted to radians) advance when the
corresponding send type is nonzero, and the last-sent transform advances
fieldwise per send type. -/
def advanceLasts (cfg : RBSendCfg) (q q2 : RBEntry) (ts : ℕ × ℕ × ℕ × ℕ × ℕ) : RBEntry :=
  let linV := if q.hasRigid then q.linVel else Q3.zero
  let angV := if q.hasRigid then cfg.degToRad q.angVelDeg else Q3.zero
  { q2 with
    lastLinVel := if ts.2.2.2.1 != 0 then linV else q2.lastLinVel
    lastAngVel := if ts.2.2.2.2 == 1 then angV else q2.lastAngVel
    lastPos := if ts.1 != 0 then q.pos else q2.lastPos
    lastRot := if ts.2.1 != 0 then q.rotE else q2.lastRot
    lastScale := if ts.2.2.1 != 0 then q.scaleV else q2.lastScale }

/-- The record emission of the encode pass for one entry: `q` carries the
scene data, `q2` is the entry with the stolen bits already cleared.  Skips
(returning no record) when nothing is dirty, when the prioritized update
interval has not elapsed, or when every send type resolves to omit;
otherwise returns the updated entry and the wire record. -/
def emitRigidBody (cfg : RBSendCfg) (q q2 : RBEntry)
    (transformDirty velocityDirty angularVelocityDirty : Bool) :
    RBEntry × Option RBRec :=
  if !transformDirty && !velocityDirty && !angularVelocityDirty then (q2, none)
  else if cfg.imEnabled && !q.elapsed then (q2, none)
  else
    let ts := computeSendTypes cfg q transformDirty velocityDirty angularVelocityDirty
    if ts.1 == 0 && ts.2.1 == 0 && ts.2.2.1 == 0 && ts.2.2.2.1 == 0 && ts.2.2.2.2 == 0 then
      (q2, none)
    else
      (advanceLasts cfg q q2 ts, some (mkRBRec cfg q ts))

/-- The loop body of `ReplicateRigidBodyChanges` for one dirty-queue entry,
without the message buffering: returns the updated entry (dirty bits stolen,
last-sent values advanced), the wire record if one is emitted, and whether
this entry set `msgReliable`. -/
def processRigidBodyEntity (cfg : RBSendCfg) (q : RBEntry) :
    RBEntry × Option RBRec × Bool :=
  if q.isNew || q.removed then (q, none, false)
  else if !q.hasPlaceable then (q, none, false)
  else
    let pc := stealPlaceableBit q.placeableComp
    let rg := stealRigidBits q
    let q2 := { q with placeableComp := pc.2, rigidComp := rg.2.2.2 }
    let e := emitRigidBody cfg q q2 pc.1 rg.1 rg.2.1
    (e.1, e.2, rg.2.2.1)

/-- One flushed RigidBodyUpdate message: the entity records it carries and
the reliable flag it was sent with. -/
structure RBMsg where
  records : List RBRec
  reliable : Bool
deriving DecidableEq

/-- Accumulator of the encode pass: the current serializer content and
reliable flag, the messages flushed so far, and the updated entry states. -/
structure RBAcc where
  records : List RBRec
  bits : ℕ
  reliable : Bool
  messages : List RBMsg
  states : List RBEntry
deriving DecidableEq

/-- The buffer-full test of the loop head:
`maxMessageSizeBytes * 8 - (int)ds.BitsFilled() <= maxRigidBodyMessageSizeBits`
with `maxMessageSizeBytes = 1400` and the conservative 350-bit bound per
record. -/
def needFlush (bits : ℕ) : Bool := decide ((1400 * 8 : ℤ) - (bits : ℤ) ≤ 350)

/-- One iteration of the dirty-queue loop of `ReplicateRigidBodyChanges`:
first flush the buffer when fewer than 350 bits of the 1400-byte budget
remain (resetting `msgReliable`), then process the entry. -/
def rbStep (cfg : RBSendCfg) (acc : RBAcc) (q : RBEntry) : RBAcc :=
  let acc0 :=
    if needFlush acc.bits then
      { records := [], bits := 0, reliable := false,
        messages := acc.messages ++ [⟨acc.records, acc.reliable⟩],
        states := acc.states }
    else acc
  let res := processRigidBodyEntity cfg q
  { records := acc0.records ++ res.2.1.toList,
    bits := acc0.bits + (match res.2.1 with | some r => recordBits r | none => 0),
    reliable := acc0.reliable || res.2.2,
    messages := acc0.messages,
    states := acc0.states ++ [res.1] }

/-- The dirty-queue loop of `ReplicateRigidBodyChanges` starting from a given
accumulator, followed by the final `if (ds.BytesFilled() > 0) Send(...)`. -/
def runRigidBodyPass (cfg : RBSendCfg) (acc : RBAcc) (queue : List RBEntry) : RBAcc :=
  let final := queue.foldl (rbStep cfg) acc
  if 0 < final.bits then
    { records := [], bits := 0, reliable := false,
      messages := final.messages ++ [⟨final.records, final.reliable⟩],
      states := final.states }
  else final

/-- `SyncManager::ReplicateRigidBodyChanges` for one connection: fold the
dirty queue starting from an empty serializer and `msgReliable = false`. -/
def replicateRigidBodyChanges (cfg : RBSendCfg) (queue : List RBEntry) : RBAcc :=
  runRigidBodyPass cfg ⟨[], 0, false, [], []⟩ queue

/-- Concrete encode configuration without a prioritizer (the default). -/
def rbSendCfgNoIm : RBSendCfg := ⟨false, fun v => v⟩

/-- Concrete encode configuration with interest management enabled. -/
def rbSendCfgIm : RBSendCfg := ⟨true, fun v => v⟩

/-- Concrete dirty-queue entry of an entity coming to rest: last-sent linear
velocity `(1,0,0)`, current linear velocity zero, velocity dirty bit set. -/
def rbEntryRest : RBEntry :=
  { id := 3, isNew := false, removed := false
    placeableComp := some ⟨false, false, 1⟩
    rigidComp := some ⟨false, false, 32⟩
    lastPos := ⟨0, 0, 0⟩, lastRot := ⟨0, 0, 0⟩, lastScale := ⟨1, 1, 1⟩
    lastLinVel := ⟨1, 0, 0⟩, lastAngVel := ⟨0, 0, 0⟩
    hasPlaceable := true
    pos := ⟨0, 0, 0⟩, rotE := ⟨0, 0, 0⟩, scaleV := ⟨1, 1, 1⟩
    orient := ⟨⟨1, 0, 0⟩, ⟨0, 1, 0⟩, ⟨0, 0, 1⟩⟩
    hasRigid := true
    linVel := ⟨0, 0, 0⟩, angVelDeg := ⟨0, 0, 0⟩
    rotAngleQZero := true, angVelAngleQZero := true
    elapsed := true }

/-- Concrete dirty-queue entry whose transform and velocity bits are set but
whose values moved below every threshold, and whose prioritized interval has
not elapsed. -/
def rbEntrySkip : RBEntry :=
  { id := 4, isNew := false, removed := false
    placeableComp := some ⟨false, false, 1⟩
    rigidComp := some ⟨false, false, 96⟩
    lastPos := ⟨0, 0, 0⟩, lastRot := ⟨0, 0, 0⟩, lastScale := ⟨1, 1, 1⟩
    lastLinVel := ⟨0, 0, 0⟩, lastAngVel := ⟨0, 0, 0⟩
    hasPlaceable := true
    pos := ⟨0, 0, 0⟩, rotE := ⟨0, 0, 0⟩, scaleV := ⟨1, 1, 1⟩
    orient := ⟨⟨1, 0, 0⟩, ⟨0, 1, 0⟩, ⟨0, 0, 1⟩⟩
    hasRigid := true
    linVel := ⟨0, 0, 0⟩, angVelDeg := ⟨0, 0, 0⟩
    rotAngleQZero := true, angVelAngleQZero := true
    elapsed := false }

/-!  ## Scene, sync state and the generic message handlers

The remaining handlers (`HandleEditAttributes`, `HandleEditEntityProperties`,
`HandleSetEntityParent`, `HandleCreateEntity`, `HandleCreateComponents`)
mutate the scene and the per-connection sync states.  The scene is embedded
with attribute values as abstract numbers; the `SceneSyncState` helper class
is not part of the provided sources, so its marking operations are modelled
from the specification's description of the sync state (dirty flags per
entity/component/attribute, cleared when a change is transmitted or received
from the same connection, with `std::map operator[]` create-on-access
semantics). -/

/-- `UniqueIdGenerator::FIRST_UNACKED_ID`.  Modelled from the spec:
`UniqueIdGenerator.h` is not under the provided sources; the spec partitions
the 32-bit id space into replicated, unacked and local ranges, and the
masking `id & LAST_REPLICATED_ID` / `id | FIRST_UNACKED_ID` in
`SyncManager.cpp` forces the unacked range to start at a single bit with
`LAST_REPLICATED_ID` just below it. -/
def FIRST_UNACKED_ID : ℕ := 0x40000000

/-- `UniqueIdGenerator::FIRST_LOCAL_ID` (see `FIRST_UNACKED_ID`). -/
def FIRST_LOCAL_ID : ℕ := 0x80000000

/-- `UniqueIdGenerator::LAST_REPLICATED_ID` (see `FIRST_UNACKED_ID`). -/
def LAST_REPLICATED_ID : ℕ := 0x3fffffff

/-- `AttributeChange::Type`. -/
inductive Change where
  | replicate
  | localOnly
  | disconnected
  | dflt
deriving DecidableEq

/-- A component of the scene: id, type id and attribute values by index. -/
structure SComp where
  id : ℕ
  typeId : ℕ
  attrs : List ℕ
deriving DecidableEq

/-- An entity of the scene: id, temporary flag, parent id (0 = none) and
components. -/
structure SEntity where
  id : ℕ
  temporary : Bool
  parent : ℕ
  comps : List SComp
deriving DecidableEq

/-- The scene as an ordered entity list. -/
abbrev Scene := List SEntity

/-- `Scene::GetEntity`. -/
def sceneGet (s : Scene) (id : ℕ) : Option SEntity :=
  s.find? (fun e => e.id == id)

/-- Replace an existing entity (by id) or append a new one. -/
def scenePut (s : Scene) (e : SEntity) : Scene :=
  if (s.find? (fun x => x.id == e.id)).isSome then
    s.map (fun x => if x.id == e.id then e else x)
  else s ++ [e]

/-- `Scene::RemoveEntity` (without the change signal, which the callers of
this model record explicitly). -/
def sceneRemove (s : Scene) (id : ℕ) : Scene :=
  s.filter (fun e => e.id != id)

/-- `Entity::GetComponentById`. -/
def compGet (e : SEntity) (cid : ℕ) : Option SComp :=
  e.comps.find? (fun c => c.id == cid)

/-- `Entity::RemoveComponent` on the scene. -/
def compRemove (e : SEntity) (cid : ℕ) : SEntity :=
  { e with comps := e.comps.filter (fun c => c.id != cid) }

/-- `IAttribute::FromBinary` at the scene level: set attribute `idx` of a
component to a new value. -/
def setAttrVal (c : SComp) (idx v : ℕ) : SComp :=
  { c with attrs := c.attrs.set idx v }

/-- Ordered-map access with create-on-miss (`std::map operator[]`): get the
element with the given key, or the freshly constructed default. -/
def getAssoc {α : Type} (key : α → ℕ) (mk : ℕ → α) : List α → ℕ → α
  | [], id => mk id
  | x :: rest, id => if key x == id then x else getAssoc key mk rest id

/-- Ordered-map update with create-on-miss: apply `f` to the element with the
given key, creating it first when absent. -/
def updAssoc {α : Type} (key : α → ℕ) (mk : ℕ → α) : List α → ℕ → (α → α) → List α
  | [], id, f => [f (mk id)]
  | x :: rest, id, f => if key x == id then f x :: rest else x :: updAssoc key mk rest id f

/-- `ComponentSyncState`: per-component dirty data of one connection. -/
structure CompSync where
  id : ℕ
  isNew : Bool
  removed : Bool
  dirtyAttributes : ℕ
  newAndRemovedAttributes : List (ℕ × Bool)
deriving DecidableEq

/-- `EntitySyncState` (the dirty-tracking slice). -/
structure EntSync where
  id : ℕ
  isNew : Bool
  removed : Bool
  hasPropertyChanges : Bool
  hasParentChange : Bool
  components : List CompSync
deriving DecidableEq

/-- `SceneSyncState` of one connection, with the connection's id, its
`authenticated` property and `unackedIdsToRealIds`. -/
structure ConnSync where
  connId : ℕ
  authenticated : Bool
  entities : List EntSync
  unackedIdsToRealIds : List (ℕ × ℕ)
deriving DecidableEq

/-- A fresh `EntitySyncState`: created states start `isNew` (spec lifecycle:
entity created → `isNew=true` in every connection's state). -/
def newEntSync (id : ℕ) : EntSync := ⟨id, true, false, false, false, []⟩

/-- A fresh `ComponentSyncState`. -/
def newCompSync (id : ℕ) : CompSync := ⟨id, true, false, 0, []⟩

/-- Update one entity state of a connection (create-on-miss). -/
def updEnt (c : ConnSync) (eid : ℕ) (f : EntSync → EntSync) : ConnSync :=
  { c with entities := updAssoc EntSync.id newEntSync c.entities eid f }

/-- Update one component state of an entity state (create-on-miss). -/
def updComp (e : EntSync) (cid : ℕ) (f : CompSync → CompSync) : EntSync :=
  { e with components := updAssoc CompSync.id newCompSync e.components cid f }

/-- Modelled from the spec: `SceneSyncState::MarkAttributeDirty` — set the
attribute's dirty bit. -/
def markAttributeDirtyC (c : ConnSync) (eid cid idx : ℕ) : ConnSync :=
  updEnt c eid (fun e => updComp e cid (fun cs =>
    { cs with dirtyAttributes := setBit cs.dirtyAttributes idx }))

/-- The echo-suppression clear of `HandleEditAttributes`/`HandleCreateAttributes`:
`state->entities[e].components[c].dirtyAttributes[i >> 3] &= ~(1 << (i & 7))`. -/
def clearAttributeDirtyC (c : ConnSync) (eid cid idx : ℕ) : ConnSync :=
  updEnt c eid (fun e => updComp e cid (fun cs =>
    { cs with dirtyAttributes := clearBit cs.dirtyAttributes idx }))

/-- Modelled from the spec: `SceneSyncState::MarkEntityDirty` with the
property/parent flags of `SyncManager::OnEntityPropertiesChanged` /
`OnEntityParentChanged`. -/
def markEntityDirtyC (c : ConnSync) (eid : ℕ) (props parent : Bool) : ConnSync :=
  updEnt c eid (fun e =>
    { e with hasPropertyChanges := e.hasPropertyChanges || props,
             hasParentChange := e.hasParentChange || parent })

/-- The echo-suppression clear of `HandleEditEntityProperties`:
`state->entities[entityID].hasPropertyChanges = false`. -/
def clearPropertyChangesC (c : ConnSync) (eid : ℕ) : ConnSync :=
  updEnt c eid (fun e => { e with hasPropertyChanges := false })

/-- The echo-suppression clear of `HandleSetEntityParent`:
`state->entities[entityID].hasParentChange = false`. -/
def clearParentChangeC (c : ConnSync) (eid : ℕ) : ConnSync :=
  updEnt c eid (fun e => { e with hasParentChange := false })

/-- Modelled from the spec: `SceneSyncState::MarkComponentDirty` — ensure the
component state exists (new states start `isNew`) and queue it. -/
def markComponentDirtyC (c : ConnSync) (eid cid : ℕ) : ConnSync :=
  updEnt c eid (fun e => updComp e cid (fun cs => cs))

/-- Modelled from the spec: `SceneSyncState::MarkComponentProcessed` — the
component's create and dirty data are cleared once transmitted or received. -/
def markComponentProcessedC (c : ConnSync) (eid cid : ℕ) : ConnSync :=
  updEnt c eid (fun e => updComp e cid (fun cs =>
    { cs with isNew := false, dirtyAttributes := 0, newAndRemovedAttributes := [] }))

/-- Modelled from the spec: `SceneSyncState::MarkEntityProcessed` — the
entity's create and dirty flags and all its components' dirty data are
cleared once transmitted or received. -/
def markEntityProcessedC (c : ConnSync) (eid : ℕ) : ConnSync :=
  updEnt c eid (fun e =>
    { e with
      isNew := false
      hasPropertyChanges := false
      hasParentChange := false
      components := e.components.map (fun cs =>
        { cs with isNew := false, dirtyAttributes := 0, newAndRemovedAttributes := [] }) })

/-- The replication-relevant state of one peer: role, scene, the connection
sync states, the scene's `AllowModifyEntity` verdict for the current sender
(a collaborator predicate) and the warning-log counter. -/
structure NetState where
  isServer : Bool
  scene : Scene
  conns : List ConnSync
  allowModify : Bool
  warnings : ℕ
deriving DecidableEq

/-- The connection state of a given connection id. -/
def connOf (ns : NetState) (cid : ℕ) : Option ConnSync :=
  ns.conns.find? (fun c => c.connId == cid)

/-- `SyncManager::OnAttributeChanged` as triggered by
`IComponent::EmitAttributeChanged`: for a `Replicate` change, mark the
attribute dirty in every connection's sync state (the sender's included —
echo suppression is the handler's later clear). -/
def emitAttributeChanged (ns : NetState) (eid cid idx : ℕ) (change : Change) : NetState :=
  if change == Change.replicate then
    { ns with conns := ns.conns.map (fun c => markAttributeDirtyC c eid cid idx) }
  else ns

/-- `SyncManager::OnEntityPropertiesChanged` as triggered by
`Entity::SetTemporary`. -/
def emitPropertiesChanged (ns : NetState) (eid : ℕ) (change : Change) : NetState :=
  if change == Change.replicate then
    { ns with conns := ns.conns.map (fun c => markEntityDirtyC c eid true false) }
  else ns

/-- `SyncManager::OnEntityParentChanged` as triggered by `Entity::SetParent`. -/
def emitParentChanged (ns : NetState) (eid : ℕ) (change : Change) : NetState :=
  if change == Change.replicate then
    { ns with conns := ns.conns.map (fun c => markEntityDirtyC c eid false true) }
  else ns

/-- `SyncManager::OnEntityCreated` as triggered by `Scene::EmitEntityCreated`. -/
def emitEntityCreated (ns : NetState) (eid : ℕ) (change : Change) : NetState :=
  if change == Change.replicate then
    { ns with conns := ns.conns.map (fun c => updEnt c eid (fun e => e)) }
  else ns

/-- `SyncManager::OnComponentAdded` as triggered by
`IComponent::ComponentChanged`. -/
def emitComponentAdded (ns : NetState) (eid cid : ℕ) (change : Change) : NetState :=
  if change == Change.replicate then
    { ns with conns := ns.conns.map (fun c => markComponentDirtyC c eid cid) }
  else ns

/-- `SyncManager::ValidateAction`: on a server, drop messages of
unauthenticated connections; clients trust the server. -/
def validateAction (ns : NetState) (sourceId : ℕ) : Bool :=
  if !ns.isServer then true
  else
    match connOf ns sourceId with
    | some c => c.authenticated
    | none => false

/-- Is an id in the unacked range `[FIRST_UNACKED_ID, FIRST_LOCAL_ID)`? -/
def inUnackedRange (id : ℕ) : Bool :=
  decide (FIRST_UNACKED_ID ≤ id) && decide (id < FIRST_LOCAL_ID)

/-- Parsed `EditEntityProperties` message (109). -/
structure EditPropsMsg where
  entityID : ℕ
  temporary : Bool
deriving DecidableEq

/-- `SyncManager::HandleEditEntityProperties`: applies the temporary flag to
the entity and clears `hasPropertyChanges` in the sender's sync state after
the change signal marked it in every state.  The entity id from the wire is
used as is — there is no unacked-id translation in this handler. -/
def handleEditEntityProperties (ns : NetState) (sourceId : ℕ) (m : EditPropsMsg) :
    NetState :=
  let change := if ns.isServer then Change.replicate else Change.localOnly
  if !(validateAction ns sourceId) then ns
  else
    match sceneGet ns.scene m.entityID with
    | some e =>
      if !ns.allowModify then ns
      else
        let ns1 := { ns with scene := scenePut ns.scene { e with temporary := m.temporary } }
        let ns2 := emitPropertiesChanged ns1 m.entityID change
        { ns2 with conns := ns2.conns.map (fun c =>
            if c.connId == sourceId then clearPropertyChangesC c m.entityID else c) }
    | none => { ns with warnings := ns.warnings + 1 }

/-- Parsed `SetEntityParent` message (124). -/
structure SetParentMsg where
  entityID : ℕ
  parentEntityID : ℕ
deriving DecidableEq

/-- `SyncManager::HandleSetEntityParent`: on the server, both the entity id
and the parent id are translated through the sender's `unackedIdsToRealIds`
when they lie in the unacked range, and the message is dropped with a
warning when the map has no entry; then the parent link is applied and
`hasParentChange` is cleared in the sender's sync state. -/
def handleSetEntityParent (ns : NetState) (sourceId : ℕ) (m : SetParentMsg) : NetState :=
  match connOf ns sourceId with
  | none => { ns with warnings := ns.warnings + 1 }
  | some src =>
    let change := if ns.isServer then Change.replicate else Change.localOnly
    let eidT : Option ℕ :=
      if ns.isServer && inUnackedRange m.entityID then
        lookupById src.unackedIdsToRealIds m.entityID
      else some m.entityID
    match eidT with
    | none => { ns with warnings := ns.warnings + 1 }
    | some entityID =>
      let pidT : Option ℕ :=
        if ns.isServer && inUnackedRange m.parentEntityID then
          lookupById src.unackedIdsToRealIds m.parentEntityID
        else some m.parentEntityID
      match pidT with
      | none => { ns with warnings := ns.warnings + 1 }
      | some parentEntityID =>
        if !(validateAction ns sourceId) then ns
        else
          match sceneGet ns.scene entityID with
          | some e =>
            if !ns.allowModify then ns
            else if parentEntityID != 0 && !(sceneGet ns.scene parentEntityID).isSome then
              { ns with warnings := ns.warnings + 1 }
            else
              let ns1 := { ns with scene := scenePut ns.scene { e with parent := parentEntityID } }
              let ns2 := emitParentChanged ns1 entityID change
              { ns2 with conns := ns2.conns.map (fun c =>
                  if c.connId == sourceId then clearParentChangeC c entityID else c) }
          | none => { ns with warnings := ns.warnings + 1 }

/-- Parsed `EditAttributes` message (113): per component, the decoded
`(attribute index, value)` pairs (see `readEditAttributes` for the bit
layout).  The entity id from the wire is used as is — there is no unacked-id
translation in this handler. -/
structure EditAttrsMsg where
  entityID : ℕ
  comps : List (ℕ × List (ℕ × ℕ))
deriving DecidableEq

/-- The first pass of `HandleEditAttributes`: apply each decoded value with
`AttributeChange::Disconnected` (no signals) and collect the changed
`(component id, attribute index)` pairs; a missing component logs a warning
and skips to the next component. -/
def applyEdits (e : SEntity) : List (ℕ × List (ℕ × ℕ)) → SEntity × List (ℕ × ℕ) × ℕ
  | [] => (e, [], 0)
  | (cid, edits) :: rest =>
    match compGet e cid with
    | none =>
      let r := applyEdits e rest
      (r.1, r.2.1, r.2.2 + 1)
    | some comp =>
      let comp' := edits.foldl (fun c p => setAttrVal c p.1 p.2) comp
      let e1 := { e with comps := e.comps.map (fun c => if c.id == cid then comp' else c) }
      let r := applyEdits e1 rest
      (r.1, edits.map (fun p => (cid, p.1)) ++ r.2.1, r.2.2)

/-- The second pass of `HandleEditAttributes` for one changed attribute:
`EmitAttributeChanged` (marking the dirty bit in every connection's state for
a `Replicate` change), then clear the dirty bit in the sender's state so the
change is not echoed back. -/
def emitAndClearAttr (sourceId eid : ℕ) (change : Change) (ns : NetState)
    (p : ℕ × ℕ) : NetState :=
  let ns1 := emitAttributeChanged ns eid p.1 p.2 change
  { ns1 with conns := ns1.conns.map (fun c =>
      if c.connId == sourceId then clearAttributeDirtyC c eid p.1 p.2 else c) }

/-- `SyncManager::HandleEditAttributes`: apply all decoded values, then
signal and echo-clear each changed attribute in order. -/
def handleEditAttributes (ns : NetState) (sourceId : ℕ) (m : EditAttrsMsg) : NetState :=
  if !(validateAction ns sourceId) then ns
  else
    match sceneGet ns.scene m.entityID with
    | some e =>
      if !ns.allowModify then ns
      else
        let r := applyEdits e m.comps
        let ns1 :=
          { ns with
            scene := scenePut ns.scene r.1
            warnings := ns.warnings + r.2.2 }
        r.2.1.foldl
          (emitAndClearAttr sourceId m.entityID
            (if ns.isServer then Change.replicate else Change.localOnly)) ns1
    | none => { ns with warnings := ns.warnings + 1 }

/-- One serialized component of a CreateEntity/CreateComponents message. -/
structure CompData where
  compId : ℕ
  typeId : ℕ
  attrs : List ℕ
deriving DecidableEq

/-- One component item of the bitstream: either it deserializes to data, or
the codec throws `kNet::NetException` at this point. -/
inductive CompItem where
  | ok (d : CompData)
  | err
deriving DecidableEq

/-- Parsed `CreateEntity` message (110). -/
structure CreateEntityMsg where
  entityID : ℕ
  temporary : Bool
  parentID : ℕ
  comps : List CompItem
deriving DecidableEq

/-- Parsed `CreateComponents` message (111). -/
structure CreateCompsMsg where
  entityID : ℕ
  comps : List CompItem
deriving DecidableEq

/-- Result of a fallible handler: the new state, whether the handler threw
(propagating to `HandleNetworkMessage`, which then disconnects the sender),
and the `RemoveEntity` / `RemoveComponent` rollback calls it made with their
change kinds. -/
structure HandlerResult where
  ns : NetState
  thrown : Bool
  removals : List (ℕ × Change)
  compRemovals : List (ℕ × Change)
deriving DecidableEq

/-- Append a component to an entity of the scene
(`Entity::CreateComponentWithId` with the attribute values deserialized with
`AttributeChange::Disconnected`). -/
def addCompToEntity (s : Scene) (eid : ℕ) (c : SComp) : Scene :=
  match sceneGet s eid with
  | some e => scenePut s { e with comps := e.comps ++ [c] }
  | none => s

/-- The component-reading loop shared by `HandleCreateEntity` and
`HandleCreateComponents`: each deserialized component is created (the server
rewrites its id to a fresh one) and marked processed in the sender's sync
state; an `err` item aborts with `thrown = true`, keeping everything done so
far.  Returns the scene, the connection states, the created component ids in
order, and the thrown flag. -/
def processCompItems (isServer : Bool) (sourceId eid : ℕ) :
    List CompItem → ℕ → Scene → List ConnSync →
      Scene × List ConnSync × List ℕ × Bool
  | [], _, scene, conns => (scene, conns, [], false)
  | CompItem.err :: _, _, scene, conns => (scene, conns, [], true)
  | CompItem.ok d :: rest, nextCompId, scene, conns =>
    let compID := if isServer then nextCompId else d.compId
    let scene1 := addCompToEntity scene eid ⟨compID, d.typeId, d.attrs⟩
    let conns1 := conns.map (fun c =>
      if c.connId == sourceId then markComponentProcessedC c eid compID else c)
    let r := processCompItems isServer sourceId eid rest (nextCompId + 1) scene1 conns1
    (r.1, r.2.1, compID :: r.2.2.1, r.2.2.2)

/-- `SyncManager::HandleCreateEntity`: the server ignores the sender's entity
id, assigns `nextFreeId` and records the unacked-to-real mapping; the entity
and its components are built with `Disconnected` deserialization; a codec
throw removes the partially created entity with
`RemoveEntity(..., Disconnected)` and rethrows; on success the coherent
entity is signalled (`EmitEntityCreated`, per-component `ComponentChanged`)
and the entity is marked processed in the sender's sync state. -/
def handleCreateEntity (ns : NetState) (sourceId nextFreeId nextCompId : ℕ)
    (m : CreateEntityMsg) : HandlerResult :=
  match connOf ns sourceId with
  | none => ⟨{ ns with warnings := ns.warnings + 1 }, false, [], []⟩
  | some _ =>
    if !ns.allowModify then ⟨ns, false, [], []⟩
    else
      let change := if ns.isServer then Change.replicate else Change.localOnly
      if !(validateAction ns sourceId) then ⟨ns, false, [], []⟩
      else
        let senderEntityID := m.entityID
        let entityID := if ns.isServer then nextFreeId else m.entityID
        let scene0 :=
          if !ns.isServer && (sceneGet ns.scene m.entityID).isSome then
            sceneRemove ns.scene m.entityID
          else ns.scene
        let conns0 :=
          if ns.isServer then
            ns.conns.map (fun c =>
              if c.connId == sourceId then
                { c with unackedIdsToRealIds :=
                    c.unackedIdsToRealIds ++ [(senderEntityID ||| FIRST_UNACKED_ID, entityID)] }
              else c)
          else ns.conns
        if (sceneGet scene0 entityID).isSome then
          ⟨{ ns with scene := scene0, conns := conns0, warnings := ns.warnings + 1 },
            false, [], []⟩
        else
          let scene1 := scene0 ++ [⟨entityID, false, 0, []⟩]
          let conns1 :=
            if ns.isServer then
              conns0.map (fun c =>
                if c.connId == sourceId then markEntityProcessedC c entityID else c)
            else conns0
          let scene2 := scenePut scene1 ⟨entityID, m.temporary, 0, []⟩
          let srcMap1 :=
            match conns0.find? (fun c => c.connId == sourceId) with
            | some c => c.unackedIdsToRealIds
            | none => []
          let parentRes : ℕ × ℕ :=
            if ns.isServer && inUnackedRange m.parentID then
              match lookupById srcMap1 m.parentID with
              | some r => (r, 0)
              | none => (m.parentID, 1)
            else (m.parentID, 0)
          let scene3 :=
            if parentRes.1 != 0 && (sceneGet scene2 parentRes.1).isSome then
              scenePut scene2 ⟨entityID, m.temporary, parentRes.1, []⟩
            else scene2
          let wParent :=
            parentRes.2 + (if parentRes.1 != 0 && !(sceneGet scene2 parentRes.1).isSome
              then 1 else 0)
          let pr := processCompItems ns.isServer sourceId entityID m.comps nextCompId
            scene3 conns1
          if pr.2.2.2 then
            ⟨{ ns with
                scene := sceneRemove pr.1 entityID
                conns := pr.2.1
                warnings := ns.warnings + wParent },
              true, [(entityID, Change.disconnected)], []⟩
          else
            let nsA :=
              { ns with
                scene := pr.1
                conns := pr.2.1
                warnings := ns.warnings + wParent }
            let nsB := emitEntityCreated nsA entityID change
            let nsC := pr.2.2.1.foldl
              (fun acc cid => emitComponentAdded acc entityID cid change) nsB
            let nsD := { nsC with conns := nsC.conns.map (fun c =>
                if c.connId == sourceId then markEntityProcessedC c entityID else c) }
            ⟨nsD, false, [], []⟩

/-- `SyncManager::HandleCreateComponents`: components are created with
`Disconnected` deserialization (the server rewriting their ids); a codec
throw removes every component created so far with
`RemoveComponent(..., Disconnected)` and rethrows; on success each added
component is signalled with `ComponentChanged`. -/
def handleCreateComponents (ns : NetState) (sourceId nextCompId : ℕ)
    (m : CreateCompsMsg) : HandlerResult :=
  match connOf ns sourceId with
  | none => ⟨{ ns with warnings := ns.warnings + 1 }, false, [], []⟩
  | some _ =>
    let change := if ns.isServer then Change.replicate else Change.localOnly
    if !(validateAction ns sourceId) then ⟨ns, false, [], []⟩
    else
      match sceneGet ns.scene m.entityID with
      | none => ⟨{ ns with warnings := ns.warnings + 1 }, false, [], []⟩
      | some _ =>
        if !ns.allowModify then ⟨ns, false, [], []⟩
        else
          let pr := processCompItems ns.isServer sourceId m.entityID m.comps nextCompId
            ns.scene ns.conns
          if pr.2.2.2 then
            let sceneR := pr.2.2.1.foldl (fun s cid =>
              match sceneGet s m.entityID with
              | some e => scenePut s (compRemove e cid)
              | none => s) pr.1
            ⟨{ ns with scene := sceneR, conns := pr.2.1 }, true, [],
              pr.2.2.1.map (fun cid => (cid, Change.disconnected))⟩
          else
            let nsA := { ns with scene := pr.1, conns := pr.2.1 }
            let nsB := pr.2.2.1.foldl
              (fun acc cid => emitComponentAdded acc m.entityID cid change) nsA
            ⟨nsB, false, [], []⟩

/-- The entity sync state a connection holds for an entity id
(`SceneSyncState::entities[id]`, create-on-miss). -/
def entStateOf (c : ConnSync) (eid : ℕ) : EntSync :=
  getAssoc EntSync.id newEntSync c.entities eid

/-- The component sync state a connection holds for a component
(`EntitySyncState::components[id]`, create-on-miss). -/
def compStateOf (c : ConnSync) (eid cid : ℕ) : CompSync :=
  getAssoc CompSync.id newCompSync (entStateOf c eid).components cid

/-- Echo suppression at one attribute: whatever sync state the state holds
for the sender's connection, the attribute's dirty bit is clear, so the next
`ProcessSyncState` tick sends nothing for it to the sender. -/
def senderBitClear (ns : NetState) (sourceId eid cid idx : ℕ) : Prop :=
  ∀ c', connOf ns sourceId = some c' →
    (compStateOf c' eid cid).dirtyAttributes.testBit idx = false

/-- The `unackedIdsToRealIds` map the connection list holds for a given
connection id. -/
def unackedAt (conns : List ConnSync) (sid : ℕ) : Option (List (ℕ × ℕ)) :=
  (conns.find? (fun c => c.connId == sid)).map ConnSync.unackedIdsToRealIds

/-- C2 counterexample fixture: a server scene with one entity (id 7) and one
authenticated client connection (id 1) whose unacked-id map sends
`FIRST_UNACKED_ID + 1` to the real id 7. -/
def c2NS : NetState :=
  ⟨true, [⟨7, false, 0, []⟩], [⟨1, true, [], [(FIRST_UNACKED_ID + 1, 7)]⟩], true, 0⟩

/-- C1 witness fixture: a server scene with one entity (id 5) holding one
component (id 2, two attributes) and two authenticated clients (ids 1, 3). -/
def c1NS : NetState :=
  ⟨true, [⟨5, false, 0, [⟨2, 9, [10, 11]⟩]⟩],
    [⟨1, true, [], []⟩, ⟨3, true, [], []⟩], true, 0⟩

/-- C1 witness message: client 1 edits attribute 0 of component 2 of
entity 5. -/
def c1Msg : EditAttrsMsg := ⟨5, [(2, [(0, 42)])]⟩

/-- C9 witness fixture: a server with entity 7 and one authenticated client
(id 1). -/
def c9NS : NetState :=
  ⟨true, [⟨7, false, 0, []⟩], [⟨1, true, [], []⟩], true, 0⟩

/-- C9 witness message: a CreateComponents message for entity 7 whose second
component item makes the codec throw. -/
def c9Msg : CreateCompsMsg := ⟨7, [CompItem.ok ⟨4, 9, [1]⟩, CompItem.err]⟩

/-- C9 witness message: a CreateEntity message whose first component item
makes the codec throw. -/
def c9EMsg : CreateEntityMsg := ⟨11, false, 0, [CompItem.err]⟩

end Tundra

namespace Tundra

/-- C5 counterexample: with no `--clientextrapolationtime` parameter,
`maxLinExtrapTime_` is `3.0` (from the constructor initializer list), not
`1.0` as the claim states. -/
theorem c5_counterexample : syncManagerMaxLinExtrapTime none ≠ 1 := by
  decide

/-- C5 (amended): `maxLinExtrapTime_` defaults to `3.0`, and when
`--clientextrapolationtime` is given a non-negative value `ms` (milliseconds)
it equals `1.0 + ms / 1000 / updatePeriod` with the default update period. -/
theorem c5_extrapolation_window :
    syncManagerMaxLinExtrapTime none = 3 ∧
    ∀ ms : ℚ, 0 ≤ ms →
      syncManagerMaxLinExtrapTime (some ms) = 1 + ms / 1000 / defaultUpdatePeriod := by
  refine ⟨by decide, ?_⟩
  intro ms hms
  simp [syncManagerMaxLinExtrapTime, getClientExtrapolationTime, hms]

/-- C5 witness: at `ms = 100` the hypotheses of `c5_extrapolation_window`
hold and the window is `1 + 100/1000/(1/20) = 3` update periods. -/
theorem c5_witness :
    0 ≤ (100 : ℚ) ∧
      syncManagerMaxLinExtrapTime (some 100) = 1 + 100 / 1000 / defaultUpdatePeriod :=
  ⟨by norm_num, c5_extrapolation_window.2 100 (by norm_num)⟩

/-- C8 counterexample: message id 104 matches no `case` label; the dispatcher
emits no warning log line at all (the claim states a warning is logged). -/
theorem c8_counterexample :
    (handleNetworkMessage 104 false).handled = false ∧
      (handleNetworkMessage 104 false).warnings = [] := by
  decide

/-- C8 (amended): a received message whose id matches no `case` label of
`HandleNetworkMessage` is silently ignored: no handler runs, no warning or
error is logged, and the connection is not disconnected. -/
theorem c8_unknown_message_id (messageId : ℕ) (handlerThrows : Bool)
    (h : handledMessageId messageId = false) :
    handleNetworkMessage messageId handlerThrows =
      { handled := false, warnings := [], errors := [], disconnected := false } := by
  simp [handleNetworkMessage, h]

/-- C8 witness: message id 104 (between the allocated ObserverPosition 105 and
the login range) is unknown and is ignored without warning or disconnect. -/
theorem c8_witness :
    handledMessageId 104 = false ∧
      handleNetworkMessage 104 true =
        { handled := false, warnings := [], errors := [], disconnected := false } :=
  ⟨by decide, c8_unknown_message_id 104 true (by decide)⟩

/-- Index-list reading inverts index-list writing when every written index is
in bounds. -/
theorem readIndexItems_of_flatMap (numAttrs : ℕ) (vals : ℕ → ℕ) (l : List ℕ)
    (h : ∀ i ∈ l, i < numAttrs) :
    readIndexItems numAttrs l.length
        (l.flatMap fun i => [Token.byte i, Token.value (vals i)]) =
      some (l.map fun i => (i, vals i)) := by
  induction l with
  | nil => rfl
  | cons a as ih =>
    have ha : a < numAttrs := h a (by simp)
    have ih' := ih (fun i hi => h i (by simp [hi]))
    rw [List.flatMap_def] at ih'
    simp [readIndexItems, ha, ih']

/-- Bitmask reading inverts bitmask writing. -/
theorem readBitmaskItems_of_flatMap (dirty : ℕ) (vals : ℕ → ℕ) (is : List ℕ) :
    readBitmaskItems is
        (is.flatMap fun i =>
          if dirty.testBit i then [Token.bit true, Token.value (vals i)]
          else [Token.bit false]) =
      some ((is.filter fun i => dirty.testBit i).map fun i => (i, vals i)) := by
  induction is with
  | nil => rfl
  | cons a as ih =>
    by_cases h : dirty.testBit a = true
    · simp [List.flatMap_cons, h, readBitmaskItems, ih, List.filter_cons_of_pos]
    · simp only [Bool.not_eq_true] at h
      simp [List.flatMap_cons, h, readBitmaskItems, ih, List.filter_cons_of_neg]

/-- C6 counterexample: a component with 4 attributes of which exactly one
(index 1) is dirty: the sender compares `1 * 8 + 8 = 16` with `4` and picks
the bitmask layout (leading bit 1), not the index list the claim states. -/
theorem c6_counterexample :
    (changedAttributesOf 2 4).length = 1 ∧
      (writeEditAttributes [10, 20, 30, 40] 2).head? ≠ some (Token.bit false) := by
  decide

/-- C6 (amended): the sender picks the index-list layout (leading bit 0)
exactly when `8 · changedCount + 8 ≤ attributeCount` (so a tie goes to the
index list), the bitmask layout (leading bit 1) otherwise; and in either
layout the receiver decodes exactly the changed `(index, value)` pairs the
sender encoded. -/
theorem c6_edit_encoding_choice (attrs : List ℕ) (dirty : ℕ) :
    ((writeEditAttributes attrs dirty).head? = some (Token.bit false) ↔
      (changedAttributesOf dirty attrs.length).length * 8 + 8 ≤ attrs.length) ∧
    readEditAttributes attrs.length (writeEditAttributes attrs dirty) =
      some ((changedAttributesOf dirty attrs.length).map fun i => (i, attrs.getD i 0)) := by
  constructor
  · unfold writeEditAttributes
    by_cases h : (changedAttributesOf dirty attrs.length).length * 8 + 8 ≤ attrs.length
    · simp [h]
    · simp [h]
  · unfold writeEditAttributes
    by_cases h : (changedAttributesOf dirty attrs.length).length * 8 + 8 ≤ attrs.length
    · have hb : ∀ i ∈ changedAttributesOf dirty attrs.length, i < attrs.length := by
        intro i hi
        have := List.mem_filter.mp hi
        exact List.mem_range.mp this.1
      have hr := readIndexItems_of_flatMap attrs.length (fun i => attrs.getD i 0)
        (changedAttributesOf dirty attrs.length) hb
      simp only [h, if_true, readEditAttributes]
      exact hr
    · have hr := readBitmaskItems_of_flatMap dirty (fun i => attrs.getD i 0)
        (List.range attrs.length)
      simp only [h, if_false, readEditAttributes, ite_false]
      simpa [changedAttributesOf] using hr

/-- C7: on the server, a received `EntityAction` whose `execType` has the
`Local` or `Server` bit set is executed locally; when the `Peers` bit is set,
the action with `executionType` rewritten to `Local` is appended to the
`queuedActions` of every other connection (in particular every other
authenticated one), while the sender's own connection is left unchanged. -/
theorem c7_entity_action_fan_out (conns : List ActConn) (sourceId : ℕ) (msg : ActionMsg) :
    ((msg.executionType &&& 1 ≠ 0 ∨ msg.executionType &&& 2 ≠ 0) →
      (handleEntityAction true true conns sourceId msg).executedLocally = true) ∧
    (msg.executionType &&& 4 ≠ 0 →
      (∀ c ∈ conns, c.authenticated = true → c.connId ≠ sourceId →
        { c with queuedActions := c.queuedActions ++ [{ msg with executionType := 1 }] } ∈
          (handleEntityAction true true conns sourceId msg).conns) ∧
      (∀ c ∈ conns, c.connId = sourceId →
        c ∈ (handleEntityAction true true conns sourceId msg).conns)) := by
  constructor
  · intro h
    rcases h with h | h
    · simp only [Nat.and_one_is_mod] at h
      simp [handleEntityAction, bne_iff_ne]
      left
      omega
    · simp [handleEntityAction, bne_iff_ne]
      right
      exact h
  · intro hp
    have hp' : (msg.executionType &&& 4 != 0) = true := by simpa using hp
    constructor
    · intro c hc _ hne
      have hne' : (c.connId != sourceId) = true := by simpa using hne
      simp only [handleEntityAction, Bool.not_true, Bool.false_eq_true, if_false, hp',
        Bool.true_and, if_true]
      refine List.mem_map.mpr ⟨c, hc, ?_⟩
      simp [hne']
    · intro c hc he
      have he' : (c.connId != sourceId) = false := by simp [he]
      simp only [handleEntityAction, Bool.not_true, Bool.false_eq_true, if_false, hp',
        Bool.true_and, if_true]
      refine List.mem_map.mpr ⟨c, hc, ?_⟩
      simp [he']

/-- C4: in `HandleRigidBodyChanges`, a record for an entity with an existing
interpolation state, received over UDP with a packet id that the comparator
says is older than `lastReceivedPacketCounter`, is ignored: the connection's
interpolation map is returned unchanged (and since the handler never writes
the entity's transform, the transform is unchanged as well). -/
theorem c4_latest_data_guarantee (cfg : RBRecvCfg) (ent : RBRecvEntity)
    (interps : List (ℕ × RBInterp)) (packetId : ℕ) (w : RBWireRecord)
    (interp : RBInterp)
    (hfound : lookupById interps w.entityId = some interp)
    (hudp : cfg.udp = true)
    (hold : cfg.newer interp.lastReceivedPacketCounter packetId = true) :
    handleRigidBodyRecord cfg ent interps packetId w = interps := by
  simp [handleRigidBodyRecord, hfound, hudp, hold]

/-- C4 witness: entity 7 has an interpolation state whose last received
packet counter is 2; a record arrives over UDP with packet id 65535, which
the 16-bit wraparound comparator ranks older than 2; the map is unchanged. -/
theorem c4_witness :
    (lookupById [(7, (⟨⟨Q3.zero, 0, Q3.zero, Q3.zero, Q3.zero⟩,
          ⟨Q3.zero, 0, Q3.zero, Q3.zero, Q3.zero⟩, 0, 2, true⟩ : RBInterp))] 7 =
        some ⟨⟨Q3.zero, 0, Q3.zero, Q3.zero, Q3.zero⟩,
          ⟨Q3.zero, 0, Q3.zero, Q3.zero, Q3.zero⟩, 0, 2, true⟩ ∧
      packetIdIsNewerThan 2 65535 = true) ∧
    handleRigidBodyRecord ⟨true, packetIdIsNewerThan, 1 / 20⟩
        ⟨true, true, Q3.zero, 0, Q3.zero, true, true, Q3.zero, Q3.zero⟩
        [(7, ⟨⟨Q3.zero, 0, Q3.zero, Q3.zero, Q3.zero⟩,
          ⟨Q3.zero, 0, Q3.zero, Q3.zero, Q3.zero⟩, 0, 2, true⟩)] 65535
        ⟨7, 1, 0, 0, 0, 0, ⟨1, 2, 3⟩, 0, Q3.zero, Q3.zero, Q3.zero, false⟩ =
      [(7, ⟨⟨Q3.zero, 0, Q3.zero, Q3.zero, Q3.zero⟩,
        ⟨Q3.zero, 0, Q3.zero, Q3.zero, Q3.zero⟩, 0, 2, true⟩)] :=
  ⟨⟨by decide, by decide⟩,
    c4_latest_data_guarantee ⟨true, packetIdIsNewerThan, 1 / 20⟩
      ⟨true, true, Q3.zero, 0, Q3.zero, true, true, Q3.zero, Q3.zero⟩
      [(7, ⟨⟨Q3.zero, 0, Q3.zero, Q3.zero, Q3.zero⟩,
        ⟨Q3.zero, 0, Q3.zero, Q3.zero, Q3.zero⟩, 0, 2, true⟩)] 65535
      ⟨7, 1, 0, 0, 0, 0, ⟨1, 2, 3⟩, 0, Q3.zero, Q3.zero, Q3.zero, false⟩
      ⟨⟨Q3.zero, 0, Q3.zero, Q3.zero, Q3.zero⟩,
        ⟨Q3.zero, 0, Q3.zero, Q3.zero, Q3.zero⟩, 0, 2, true⟩
      (by decide) rfl (by decide)⟩

/-- Setting a bit makes it set. -/
theorem testBit_setBit_self (n i : ℕ) : (setBit n i).testBit i = true := by
  unfold setBit
  by_cases h : n.testBit i
  · simpa [h] using h
  · rw [if_neg h]
    simp only [Bool.not_eq_true] at h
    simp [Nat.testBit_xor, h, Nat.testBit_two_pow_self]

/-- Setting a bit leaves the other bits alone. -/
theorem testBit_setBit_of_ne (n : ℕ) {i j : ℕ} (h : j ≠ i) :
    (setBit n i).testBit j = n.testBit j := by
  unfold setBit
  by_cases hb : n.testBit i
  · simp [hb]
  · rw [if_neg hb]
    simp [Nat.testBit_xor, Nat.testBit_two_pow_of_ne (Ne.symm h)]

/-- Reading an ordered map right after updating the same key. -/
theorem getAssoc_updAssoc_self {α : Type} (key : α → ℕ) (mk : ℕ → α)
    (l : List α) (id : ℕ) (f : α → α)
    (hid : key (f (getAssoc key mk l id)) = id) :
    getAssoc key mk (updAssoc key mk l id f) id = f (getAssoc key mk l id) := by
  induction l with
  | nil =>
    simp only [getAssoc] at hid
    simp [updAssoc, getAssoc, hid]
  | cons x rest ih =>
    by_cases hx : (key x == id) = true
    · simp only [getAssoc, hx, if_true] at hid
      simp [updAssoc, getAssoc, hx, hid]
    · simp only [Bool.not_eq_true] at hx
      simp only [getAssoc, hx, Bool.false_eq_true, if_false] at hid
      simp [updAssoc, getAssoc, hx, ih hid]

/-- Reading an ordered map after updating a different key. -/
theorem getAssoc_updAssoc_ne {α : Type} (key : α → ℕ) (mk : ℕ → α)
    (l : List α) {id id' : ℕ} (f : α → α) (hne : id ≠ id')
    (hid : key (f (getAssoc key mk l id')) = id') :
    getAssoc key mk (updAssoc key mk l id' f) id = getAssoc key mk l id := by
  induction l with
  | nil =>
    simp only [getAssoc] at hid
    have : (key (f (mk id')) == id) = false := by
      simp [hid, Ne.symm hne]
    simp [updAssoc, getAssoc, this]
  | cons x rest ih =>
    by_cases hx : (key x == id') = true
    · simp only [getAssoc, hx, if_true] at hid
      have h1 : (key (f x) == id) = false := by
        simp [hid, Ne.symm hne]
      have h2 : (key x == id) = false := by
        have hxe : key x = id' := by simpa using hx
        simp [hxe, Ne.symm hne]
      simp [updAssoc, getAssoc, hx, h1, h2]
    · simp only [Bool.not_eq_true] at hx
      simp only [getAssoc, hx, Bool.false_eq_true, if_false] at hid
      by_cases hxi : (key x == id) = true
      · simp [updAssoc, getAssoc, hx, hxi]
      · simp only [Bool.not_eq_true] at hxi
        simp [updAssoc, getAssoc, hx, hxi, ih hid]

/-- `find?` over a map whose function does not change the predicate. -/
theorem find?_map_eq {α : Type} (g : α → α) (p : α → Bool)
    (hg : ∀ x, p (g x) = p x) (l : List α) :
    (l.map g).find? p = (l.find? p).map g := by
  induction l with
  | nil => rfl
  | cons x rest ih =>
    by_cases hx : p x = true
    · simp [List.find?_cons, hg, hx]
    · simp only [Bool.not_eq_true] at hx
      simp [List.find?_cons, hg, hx, ih]

/-- Clearing a bit makes it unset. -/
theorem testBit_clearBit_self (n i : ℕ) : (clearBit n i).testBit i = false := by
  unfold clearBit
  by_cases h : n.testBit i
  · simp [h, Nat.testBit_xor, Nat.testBit_two_pow_self]
  · rw [if_neg h]
    simpa using h

/-- Clearing a bit leaves the other bits alone. -/
theorem testBit_clearBit_of_ne (n : ℕ) {i j : ℕ} (h : j ≠ i) :
    (clearBit n i).testBit j = n.testBit j := by
  unfold clearBit
  by_cases hb : n.testBit i
  · simp [hb, Nat.testBit_xor, Nat.testBit_two_pow_of_ne (Ne.symm h)]
  · simp [hb]

/-- Every entity record costs at least its 8-bit VLE id on the wire. -/
theorem recordBits_pos (r : RBRec) : 0 < recordBits r := by
  have h : 8 ≤ vleBits r.id := by
    unfold vleBits
    split
    · omega
    · split <;> omega
  unfold recordBits
  omega

/-- The forcing component of `stealRigidBits` in closed form. -/
theorem stealRigidBits_forced (q : RBEntry) :
    (stealRigidBits q).2.2.1 =
      (q.hasRigid &&
        (match q.rigidComp with
          | some c => !c.isNew && !c.removed
          | none => false) &&
        (linCameToRest q || angCameToRest q)) := by
  unfold stealRigidBits
  by_cases hrg : q.hasRigid = true
  · cases hrc : q.rigidComp with
    | none => simp [hrg, hrc]
    | some c =>
      by_cases hc : (!c.isNew && !c.removed) = true
      · simp [hrg, hrc, hc]
      · simp only [Bool.not_eq_true] at hc
        simp [hrg, hrc, hc]
  · simp only [Bool.not_eq_true] at hrg
    simp [hrg]

/-- The `msgReliable` contribution of one dirty-queue entry is exactly
`forcesReliable`. -/
theorem processEntity_forced_eq (cfg : RBSendCfg) (q : RBEntry) :
    (processRigidBodyEntity cfg q).2.2 = forcesReliable q := by
  unfold processRigidBodyEntity forcesReliable
  by_cases hnew : q.isNew = true
  · simp [hnew]
  · simp only [Bool.not_eq_true] at hnew
    by_cases hrem : q.removed = true
    · simp [hnew, hrem]
    · simp only [Bool.not_eq_true] at hrem
      by_cases hpl : q.hasPlaceable = true
      · simp [hnew, hrem, hpl, stealRigidBits_forced]
      · simp only [Bool.not_eq_true] at hpl
        simp [hnew, hrem, hpl]

/-- Record emission never touches the component sync states: only the
last-sent fields are advanced. -/
theorem emitRigidBody_comps (cfg : RBSendCfg) (q q2 : RBEntry)
    (td vd ad : Bool) :
    (emitRigidBody cfg q q2 td vd ad).1.placeableComp = q2.placeableComp ∧
      (emitRigidBody cfg q q2 td vd ad).1.rigidComp = q2.rigidComp := by
  constructor
  · unfold emitRigidBody
    split
    · rfl
    · split
      · rfl
      · dsimp only
        split
        · rfl
        · rfl
  · unfold emitRigidBody
    split
    · rfl
    · split
      · rfl
      · dsimp only
        split
        · rfl
        · rfl

/-- A prioritized update interval that has not elapsed suppresses the record. -/
theorem emitRigidBody_skip_interval (cfg : RBSendCfg) (q q2 : RBEntry)
    (td vd ad : Bool) (h : (cfg.imEnabled && !q.elapsed) = true) :
    (emitRigidBody cfg q q2 td vd ad).2 = none := by
  unfold emitRigidBody
  split
  · rfl
  · simp [h]

/-- A dirty linear velocity always yields a nonzero velocity send type. -/
theorem computeSendTypes_velT (cfg : RBSendCfg) (q : RBEntry) (td ad : Bool) :
    ((computeSendTypes cfg q td true ad).2.2.2.1 == 0) = false := by
  unfold computeSendTypes
  dsimp only
  by_cases hd : decide ((64 : ℚ) ≤ (if q.hasRigid then q.linVel else Q3.zero).lengthSq) = true
  · simp [hd]
  · simp only [Bool.not_eq_true] at hd
    simp [hd]

/-- A dirty angular velocity always yields angular send type 1. -/
theorem computeSendTypes_angT (cfg : RBSendCfg) (q : RBEntry) (td vd : Bool) :
    (computeSendTypes cfg q td vd true).2.2.2.2 = 1 := by
  simp [computeSendTypes]

/-- A dirty (linear or angular) velocity guarantees a record when the
prioritized interval has elapsed (velocity send types never resolve to
omit). -/
theorem emitRigidBody_emits (cfg : RBSendCfg) (q q2 : RBEntry) (td vd ad : Bool)
    (hvd : vd = true ∨ ad = true)
    (hskip : (cfg.imEnabled && !q.elapsed) = false) :
    ∃ r : RBRec, (emitRigidBody cfg q q2 td vd ad).2 = some r ∧ r.id = q.id := by
  unfold emitRigidBody
  have h1 : (!td && !vd && !ad) = false := by
    rcases hvd with h | h <;> simp [h]
  simp only [h1, hskip, Bool.false_eq_true, if_false]
  rcases hvd with h | h
  · subst h
    simp only [computeSendTypes_velT, Bool.and_false, Bool.false_and,
      Bool.false_eq_true, if_false]
    exact ⟨_, rfl, rfl⟩
  · subst h
    simp only [computeSendTypes_angT]
    simp only [Nat.reduceBEq, Bool.and_false, Bool.false_eq_true, if_false]
    exact ⟨_, rfl, rfl⟩

/-- A come-to-rest velocity makes the corresponding dirty flag true inside
`stealRigidBits`. -/
theorem stealRigidBits_dirty (q : RBEntry) (hrg : q.hasRigid = true)
    (hcc : (match q.rigidComp with
        | some c => !c.isNew && !c.removed
        | none => false) = true)
    (hres : linCameToRest q = true ∨ angCameToRest q = true) :
    (stealRigidBits q).1 = true ∨ (stealRigidBits q).2.1 = true := by
  unfold stealRigidBits
  cases hrc : q.rigidComp with
  | none => rw [hrc] at hcc; simp at hcc
  | some c =>
    rw [hrc] at hcc
    simp only [Bool.and_eq_true, Bool.not_eq_true'] at hcc
    rcases hres with h | h
    · left; simp [hrg, hcc.1, hcc.2, h]
    · right; simp [hrg, hcc.1, hcc.2, h]

/-- A come-to-rest entry that is not interval-skipped emits a record carrying
its entity id. -/
theorem processEntity_emits (cfg : RBSendCfg) (q : RBEntry)
    (hforce : forcesReliable q = true)
    (hskip : (cfg.imEnabled && !q.elapsed) = false) :
    ∃ r : RBRec, (processRigidBodyEntity cfg q).2.1 = some r ∧ r.id = q.id := by
  have h := hforce
  simp only [forcesReliable, Bool.and_eq_true, Bool.not_eq_true'] at h
  obtain ⟨⟨⟨⟨⟨hnew, hrem⟩, hpl⟩, hrg⟩, hcc⟩, hres⟩ := h
  have hres' : linCameToRest q = true ∨ angCameToRest q = true := by
    simpa using hres
  unfold processRigidBodyEntity
  simp only [hnew, hrem, hpl, Bool.or_self, Bool.not_true, Bool.false_eq_true, if_false]
  exact emitRigidBody_emits cfg q _ _ _ _ (stealRigidBits_dirty q hrg hcc hres') hskip

/-- With interest management enabled and the prioritized interval not yet
elapsed, an entry emits no record at all. -/
theorem processEntity_skip_interval (cfg : RBSendCfg) (q : RBEntry)
    (him : cfg.imEnabled = true) (hel : q.elapsed = false) :
    (processRigidBodyEntity cfg q).2.1 = none := by
  unfold processRigidBodyEntity
  split
  · rfl
  · split
    · rfl
    · show (emitRigidBody cfg q _ _ _ _).2 = none
      exact emitRigidBody_skip_interval cfg q _ _ _ _ (by simp [him, hel])

/-- A non-new, non-removed, placeable-bearing entry always has its Transform
dirty bit (bit 0 of the placeable state) and its velocity dirty bits (bits 5
and 6 of the rigid-body state) cleared by the encode pass. -/
theorem processEntity_clears (cfg : RBSendCfg) (q : RBEntry)
    (hnew : q.isNew = false) (hrem : q.removed = false) (hpl : q.hasPlaceable = true) :
    (∀ c, q.placeableComp = some c → c.isNew = false → c.removed = false →
      ∃ c', (processRigidBodyEntity cfg q).1.placeableComp = some c' ∧
        c'.bits.testBit 0 = false) ∧
    (q.hasRigid = true → ∀ c, q.rigidComp = some c → c.isNew = false → c.removed = false →
      ∃ c', (processRigidBodyEntity cfg q).1.rigidComp = some c' ∧
        c'.bits.testBit 5 = false ∧ c'.bits.testBit 6 = false) := by
  have hred : processRigidBodyEntity cfg q =
      (let pc := stealPlaceableBit q.placeableComp
       let rg := stealRigidBits q
       let q2 := { q with placeableComp := pc.2, rigidComp := rg.2.2.2 }
       let e := emitRigidBody cfg q q2 pc.1 rg.1 rg.2.1
       (e.1, e.2, rg.2.2.1)) := by
    unfold processRigidBodyEntity
    simp only [hnew, hrem, hpl, Bool.or_self, Bool.not_true, Bool.false_eq_true, if_false]
  constructor
  · intro c hc hcn hcr
    refine ⟨{ c with bits := clearBit c.bits 0 }, ?_, testBit_clearBit_self _ _⟩
    rw [hred]
    show (emitRigidBody cfg q _ _ _ _).1.placeableComp = _
    rw [(emitRigidBody_comps cfg q _ _ _ _).1]
    show (stealPlaceableBit q.placeableComp).2 = _
    rw [hc]
    unfold stealPlaceableBit
    simp [hcn, hcr]
  · intro hrg c hc hcn hcr
    refine ⟨{ c with bits := clearBit (clearBit c.bits 5) 6 }, ?_, ?_, ?_⟩
    · rw [hred]
      show (emitRigidBody cfg q _ _ _ _).1.rigidComp = _
      rw [(emitRigidBody_comps cfg q _ _ _ _).2]
      show (stealRigidBits q).2.2.2 = _
      unfold stealRigidBits
      rw [hc]
      simp [hrg, hcn, hcr]
    · rw [testBit_clearBit_of_ne _ (by omega)]
      exact testBit_clearBit_self _ _
    · exact testBit_clearBit_self _ _

/-- Unfolding the queue loop one entry at a time. -/
theorem runPass_cons (cfg : RBSendCfg) (acc : RBAcc) (q : RBEntry)
    (rest : List RBEntry) :
    runRigidBodyPass cfg acc (q :: rest) = runRigidBodyPass cfg (rbStep cfg acc q) rest :=
  rfl

/-- One loop iteration never discards an already-flushed message. -/
theorem rbStep_messages_mono (cfg : RBSendCfg) (acc : RBAcc) (q : RBEntry)
    (M : RBMsg) (h : M ∈ acc.messages) : M ∈ (rbStep cfg acc q).messages := by
  unfold rbStep
  by_cases hf : needFlush acc.bits = true
  · simp [hf, h]
  · simp only [Bool.not_eq_true] at hf
    simp [hf, h]

/-- The rest of the pass never discards an already-flushed message. -/
theorem runPass_messages_mono (cfg : RBSendCfg) (queue : List RBEntry) :
    ∀ acc M, M ∈ acc.messages → M ∈ (runRigidBodyPass cfg acc queue).messages := by
  induction queue with
  | nil =>
    intro acc M h
    unfold runRigidBodyPass
    by_cases hb : 0 < acc.bits
    · simp [hb, h]
    · simp [hb, h]
  | cons x rest ih =>
    intro acc M h
    rw [runPass_cons]
    exact ih _ M (rbStep_messages_mono _ _ _ _ h)

/-- A record sitting in a reliable, non-empty buffer ends up in some reliable
flushed message. -/
theorem runPass_reliable_record (cfg : RBSendCfg) (queue : List RBEntry) :
    ∀ acc (r : RBRec), r ∈ acc.records → acc.reliable = true → 0 < acc.bits →
      ∃ M, M ∈ (runRigidBodyPass cfg acc queue).messages ∧ M.reliable = true ∧
        r ∈ M.records := by
  induction queue with
  | nil =>
    intro acc r hr hrel hb
    refine ⟨⟨acc.records, acc.reliable⟩, ?_, by simpa using hrel, hr⟩
    unfold runRigidBodyPass
    simp [hb]
  | cons x rest ih =>
    intro acc r hr hrel hb
    rw [runPass_cons]
    by_cases hf : needFlush acc.bits = true
    · have hM : (⟨acc.records, acc.reliable⟩ : RBMsg) ∈ (rbStep cfg acc x).messages := by
        unfold rbStep
        simp [hf]
      exact ⟨⟨acc.records, acc.reliable⟩, runPass_messages_mono cfg rest _ _ hM,
        by simpa using hrel, hr⟩
    · simp only [Bool.not_eq_true] at hf
      apply ih (rbStep cfg acc x) r
      · unfold rbStep; simp [hf, hr]
      · unfold rbStep; simp [hf, hrel]
      · unfold rbStep
        simp only [hf, Bool.false_eq_true, if_false]
        have : acc.bits ≤ acc.bits +
            (match (processRigidBodyEntity cfg x).2.1 with
              | some r => recordBits r
              | none => 0) := Nat.le_add_right _ _
        omega

/-- C3: in the rigid-body encode pass, every entry whose linear or angular
velocity came to rest (current value zero within `1e-4` while the last-sent
one was nonzero, with the rigid-body state present and clean) and that is not
skipped by the prioritized-interval check ends up in a RigidBodyUpdate
message sent reliable; and when no entry of the queue forces reliability,
every message of the pass is sent unreliable. -/
theorem c3_come_to_rest (cfg : RBSendCfg) (queue : List RBEntry) :
    (∀ q ∈ queue, forcesReliable q = true → (cfg.imEnabled && !q.elapsed) = false →
      ∃ M, M ∈ (replicateRigidBodyChanges cfg queue).messages ∧ M.reliable = true ∧
        ∃ r, r ∈ M.records ∧ r.id = q.id) ∧
    ((∀ q ∈ queue, forcesReliable q = false) →
      ∀ M, M ∈ (replicateRigidBodyChanges cfg queue).messages → M.reliable = false) := by
  constructor
  · have main : ∀ (rest : List RBEntry) acc (q : RBEntry), q ∈ rest →
        forcesReliable q = true → (cfg.imEnabled && !q.elapsed) = false →
        ∃ M, M ∈ (runRigidBodyPass cfg acc rest).messages ∧ M.reliable = true ∧
          ∃ r, r ∈ M.records ∧ r.id = q.id := by
      intro rest
      induction rest with
      | nil => intro acc q h; simp at h
      | cons x rest ih =>
        intro acc q hq hforce hskip
        rw [runPass_cons]
        rcases List.mem_cons.mp hq with rfl | hq'
        · obtain ⟨r, hrec, hrid⟩ := processEntity_emits cfg q hforce hskip
          have hforced : (processRigidBodyEntity cfg q).2.2 = true := by
            rw [processEntity_forced_eq]; exact hforce
          have hr : r ∈ (rbStep cfg acc q).records := by
            unfold rbStep
            by_cases hf : needFlush acc.bits = true
            · simp [hf, hrec]
            · simp only [Bool.not_eq_true] at hf
              simp [hf, hrec]
          have hrel : (rbStep cfg acc q).reliable = true := by
            unfold rbStep
            by_cases hf : needFlush acc.bits = true
            · simp [hf, hforced]
            · simp only [Bool.not_eq_true] at hf
              simp [hf, hforced]
          have hb : 0 < (rbStep cfg acc q).bits := by
            unfold rbStep
            have := recordBits_pos r
            by_cases hf : needFlush acc.bits = true
            · simp [hf, hrec]
              omega
            · simp only [Bool.not_eq_true] at hf
              simp [hf, hrec]
              omega
          obtain ⟨M, hM, hMrel, hMr⟩ :=
            runPass_reliable_record cfg rest (rbStep cfg acc q) r hr hrel hb
          exact ⟨M, hM, hMrel, r, hMr, hrid⟩
        · exact ih (rbStep cfg acc x) q hq' hforce hskip
    intro q hq hforce hskip
    exact main queue ⟨[], 0, false, [], []⟩ q hq hforce hskip
  · have main : ∀ (rest : List RBEntry) acc,
        (∀ q ∈ rest, forcesReliable q = false) → acc.reliable = false →
        (∀ M ∈ acc.messages, M.reliable = false) →
        ∀ M, M ∈ (runRigidBodyPass cfg acc rest).messages → M.reliable = false := by
      intro rest
      induction rest with
      | nil =>
        intro acc _ hrel hall M hM
        unfold runRigidBodyPass at hM
        by_cases hb : 0 < acc.bits
        · simp only [List.foldl_nil, hb, if_true] at hM
          simp only [List.mem_append, List.mem_singleton] at hM
          rcases hM with hM | hM
          · exact hall M hM
          · rw [hM]; exact hrel
        · simp only [List.foldl_nil, hb, if_false] at hM
          exact hall M hM
      | cons x rest ih =>
        intro acc hforce hrel hall
        rw [runPass_cons]
        apply ih
        · intro p hp; exact hforce p (by simp [hp])
        · unfold rbStep
          have hx : (processRigidBodyEntity cfg x).2.2 = false := by
            rw [processEntity_forced_eq]; exact hforce x (by simp)
          by_cases hf : needFlush acc.bits = true
          · simp [hf, hx]
          · simp only [Bool.not_eq_true] at hf
            simp [hf, hx, hrel]
        · intro M hM
          unfold rbStep at hM
          by_cases hf : needFlush acc.bits = true
          · simp only [hf, if_true] at hM
            simp only [List.mem_append, List.mem_singleton] at hM
            rcases hM with hM | hM
            · exact hall M hM
            · rw [hM]; exact hrel
          · simp only [Bool.not_eq_true] at hf
            simp only [hf, Bool.false_eq_true, if_false] at hM
            exact hall M hM
    intro hforce M hM
    exact main queue ⟨[], 0, false, [], []⟩ hforce rfl (by simp) M hM

/-- The pass processes the queue entries in order and the flushes never touch
the updated entry states. -/
theorem runPass_states (cfg : RBSendCfg) (queue : List RBEntry) :
    ∀ acc, (runRigidBodyPass cfg acc queue).states =
      acc.states ++ queue.map (fun q => (processRigidBodyEntity cfg q).1) := by
  induction queue with
  | nil =>
    intro acc
    unfold runRigidBodyPass
    by_cases hb : 0 < acc.bits
    · simp [hb]
    · simp [hb]
  | cons x rest ih =>
    intro acc
    rw [runPass_cons, ih]
    have hstep : (rbStep cfg acc x).states =
        acc.states ++ [(processRigidBodyEntity cfg x).1] := by
      unfold rbStep
      by_cases hf : needFlush acc.bits = true
      · simp [hf]
      · simp only [Bool.not_eq_true] at hf
        simp [hf]
    rw [hstep]
    simp

/-- Every record of the pass comes from exactly the entries the loop body
emitted, in order: the concatenation of the flushed messages' records and the
leftover buffer equals the `filterMap` of the per-entry emission. -/
theorem runPass_records (cfg : RBSendCfg) (queue : List RBEntry) :
    ∀ acc,
      ((runRigidBodyPass cfg acc queue).messages.map RBMsg.records).flatten ++
          (runRigidBodyPass cfg acc queue).records =
        (acc.messages.map RBMsg.records).flatten ++ acc.records ++
          queue.filterMap (fun q => (processRigidBodyEntity cfg q).2.1) := by
  induction queue with
  | nil =>
    intro acc
    unfold runRigidBodyPass
    by_cases hb : 0 < acc.bits
    · simp [hb]
    · simp [hb]
  | cons x rest ih =>
    intro acc
    rw [runPass_cons, ih]
    have hmsgs : ((rbStep cfg acc x).messages.map RBMsg.records).flatten ++
        (rbStep cfg acc x).records =
        (acc.messages.map RBMsg.records).flatten ++ acc.records ++
          ((processRigidBodyEntity cfg x).2.1).toList := by
      unfold rbStep
      by_cases hf : needFlush acc.bits = true
      · simp [hf]
      · simp only [Bool.not_eq_true] at hf
        simp [hf]
    rw [hmsgs]
    cases hx : (processRigidBodyEntity cfg x).2.1 with
    | none => simp [List.filterMap_cons, hx]
    | some r => simp [List.filterMap_cons, hx]

/-- C10 (implicit): in the rigid-body encode pass, every non-new, non-removed
entry with a placeable gets its Transform dirty bit (bit 0 of the placeable
component state) and its velocity dirty bits (bits 5 and 6 of the rigid-body
component state) cleared in the resulting states no matter how the entry is
later skipped; the resulting states are exactly the per-entry results in
queue order; the records of all sent messages are exactly the per-entry
emissions; and an entry skipped by the prioritized-interval check emits no
record, so its change is dropped rather than deferred. -/
theorem c10_unconditional_steal (cfg : RBSendCfg) (queue : List RBEntry) :
    (replicateRigidBodyChanges cfg queue).states =
        queue.map (fun q => (processRigidBodyEntity cfg q).1) ∧
    ((replicateRigidBodyChanges cfg queue).messages.map RBMsg.records).flatten ++
        (replicateRigidBodyChanges cfg queue).records =
      queue.filterMap (fun q => (processRigidBodyEntity cfg q).2.1) ∧
    (∀ q ∈ queue, q.isNew = false → q.removed = false → q.hasPlaceable = true →
      (∀ c, q.placeableComp = some c → c.isNew = false → c.removed = false →
        ∃ c', (processRigidBodyEntity cfg q).1.placeableComp = some c' ∧
          c'.bits.testBit 0 = false) ∧
      (q.hasRigid = true → ∀ c, q.rigidComp = some c → c.isNew = false → c.removed = false →
        ∃ c', (processRigidBodyEntity cfg q).1.rigidComp = some c' ∧
          c'.bits.testBit 5 = false ∧ c'.bits.testBit 6 = false)) ∧
    (∀ q : RBEntry, cfg.imEnabled = true → q.elapsed = false →
      (processRigidBodyEntity cfg q).2.1 = none) := by
  refine ⟨?_, ?_, ?_, ?_⟩
  · have h := runPass_states cfg queue ⟨[], 0, false, [], []⟩
    simpa [replicateRigidBodyChanges] using h
  · have h := runPass_records cfg queue ⟨[], 0, false, [], []⟩
    simpa [replicateRigidBodyChanges] using h
  · intro q _ hnew hrem hpl
    exact processEntity_clears cfg q hnew hrem hpl
  · intro q him hel
    exact processEntity_skip_interval cfg q him hel

/-- C3 witness: an entity whose linear velocity dropped from `(1,0,0)` to
zero forces a reliable RigidBodyUpdate message containing its record. -/
theorem c3_witness :
    (rbEntryRest ∈ [rbEntryRest] ∧ forcesReliable rbEntryRest = true ∧
      (rbSendCfgNoIm.imEnabled && !rbEntryRest.elapsed) = false) ∧
    ∃ M, M ∈ (replicateRigidBodyChanges rbSendCfgNoIm [rbEntryRest]).messages ∧
      M.reliable = true ∧ ∃ r, r ∈ M.records ∧ r.id = rbEntryRest.id :=
  ⟨⟨by simp, by norm_num [forcesReliable, rbEntryRest, linCameToRest, angCameToRest,
      Q3.isZeroSq, Q3.lengthSq], by simp [rbSendCfgNoIm, rbEntryRest]⟩,
    (c3_come_to_rest rbSendCfgNoIm [rbEntryRest]).1 rbEntryRest (by simp)
      (by norm_num [forcesReliable, rbEntryRest, linCameToRest, angCameToRest,
        Q3.isZeroSq, Q3.lengthSq])
      (by simp [rbSendCfgNoIm, rbEntryRest])⟩

/-- C10 witness: an entry with dirty transform and velocity bits but
below-threshold changes and an unelapsed prioritized interval has its bits 0,
5 and 6 cleared and emits no record at all. -/
theorem c10_witness :
    (rbEntrySkip ∈ [rbEntrySkip] ∧ rbEntrySkip.isNew = false ∧
      rbEntrySkip.removed = false ∧ rbEntrySkip.hasPlaceable = true ∧
      rbEntrySkip.placeableComp = some ⟨false, false, 1⟩ ∧
      rbEntrySkip.hasRigid = true ∧ rbEntrySkip.rigidComp = some ⟨false, false, 96⟩ ∧
      rbSendCfgIm.imEnabled = true ∧ rbEntrySkip.elapsed = false) ∧
    (∃ c', (processRigidBodyEntity rbSendCfgIm rbEntrySkip).1.placeableComp = some c' ∧
      c'.bits.testBit 0 = false) ∧
    (∃ c', (processRigidBodyEntity rbSendCfgIm rbEntrySkip).1.rigidComp = some c' ∧
      c'.bits.testBit 5 = false ∧ c'.bits.testBit 6 = false) ∧
    (processRigidBodyEntity rbSendCfgIm rbEntrySkip).2.1 = none :=
  ⟨by simp [rbEntrySkip, rbSendCfgIm],
    ((c10_unconditional_steal rbSendCfgIm [rbEntrySkip]).2.2.1 rbEntrySkip (by simp)
        rfl rfl rfl).1 ⟨false, false, 1⟩ rfl rfl rfl,
    ((c10_unconditional_steal rbSendCfgIm [rbEntrySkip]).2.2.1 rbEntrySkip (by simp)
        rfl rfl rfl).2 rfl ⟨false, false, 96⟩ rfl rfl rfl,
    (c10_unconditional_steal rbSendCfgIm [rbEntrySkip]).2.2.2 rbEntrySkip rfl rfl⟩

/-- The element `getAssoc` returns carries the requested key. -/
theorem key_getAssoc {α : Type} (key : α → ℕ) (mk : ℕ → α) (l : List α) (id : ℕ)
    (hmk : key (mk id) = id) : key (getAssoc key mk l id) = id := by
  induction l with
  | nil => simpa [getAssoc] using hmk
  | cons x rest ih =>
    by_cases hx : (key x == id) = true
    · simp only [getAssoc, hx, if_true]
      simpa using hx
    · simp only [Bool.not_eq_true] at hx
      simpa [getAssoc, hx] using ih

/-- Reading the entity state just updated (for an id-preserving update). -/
theorem entStateOf_updEnt_self (c : ConnSync) (eid : ℕ) (f : EntSync → EntSync)
    (hf : ∀ e, (f e).id = e.id) :
    entStateOf (updEnt c eid f) eid = f (entStateOf c eid) := by
  unfold entStateOf updEnt
  exact getAssoc_updAssoc_self _ _ _ _ _
    (by rw [hf]; exact key_getAssoc _ _ _ _ rfl)

/-- Reading another entity state after an id-preserving update. -/
theorem entStateOf_updEnt_ne (c : ConnSync) {eid eid' : ℕ} (f : EntSync → EntSync)
    (h : eid ≠ eid') (hf : ∀ e, (f e).id = e.id) :
    entStateOf (updEnt c eid' f) eid = entStateOf c eid := by
  unfold entStateOf updEnt
  exact getAssoc_updAssoc_ne _ _ _ _ h
    (by rw [hf]; exact key_getAssoc _ _ _ _ rfl)

/-- Reading the component state just updated (id-preserving update). -/
theorem compsOf_updComp_self (e : EntSync) (cid : ℕ) (f : CompSync → CompSync)
    (hf : ∀ cs, (f cs).id = cs.id) :
    getAssoc CompSync.id newCompSync (updComp e cid f).components cid
      = f (getAssoc CompSync.id newCompSync e.components cid) := by
  unfold updComp
  exact getAssoc_updAssoc_self _ _ _ _ _
    (by rw [hf]; exact key_getAssoc _ _ _ _ rfl)

/-- Reading another component state after an id-preserving update. -/
theorem compsOf_updComp_ne (e : EntSync) {cid cid' : ℕ} (f : CompSync → CompSync)
    (h : cid ≠ cid') (hf : ∀ cs, (f cs).id = cs.id) :
    getAssoc CompSync.id newCompSync (updComp e cid' f).components cid
      = getAssoc CompSync.id newCompSync e.components cid := by
  unfold updComp
  exact getAssoc_updAssoc_ne _ _ _ _ h
    (by rw [hf]; exact key_getAssoc _ _ _ _ rfl)

/-- The echo clear of `HandleEditAttributes` unsets the attribute's bit. -/
theorem clearAttr_testBit_self (c : ConnSync) (eid cid idx : ℕ) :
    (compStateOf (clearAttributeDirtyC c eid cid idx) eid cid).dirtyAttributes.testBit idx
      = false := by
  unfold compStateOf clearAttributeDirtyC
  rw [entStateOf_updEnt_self]
  · rw [compsOf_updComp_self]
    · exact testBit_clearBit_self _ _
    · intro cs
      rfl
  · intro e
    rfl

/-- Marking a different attribute leaves the bit alone. -/
theorem markAttr_testBit_ne (c : ConnSync) (eid : ℕ) {cid idx cid' idx' : ℕ}
    (h : (cid', idx') ≠ (cid, idx)) :
    (compStateOf (markAttributeDirtyC c eid cid' idx') eid cid).dirtyAttributes.testBit idx
      = (compStateOf c eid cid).dirtyAttributes.testBit idx := by
  unfold compStateOf markAttributeDirtyC
  rw [entStateOf_updEnt_self]
  · by_cases hc : cid = cid'
    · subst hc
      have hidx : idx ≠ idx' := by
        intro he
        exact h (by rw [he])
      rw [compsOf_updComp_self]
      · exact testBit_setBit_of_ne _ hidx
      · intro cs
        rfl
    · rw [compsOf_updComp_ne _ _ hc]
      intro cs
      rfl
  · intro e
    rfl

/-- Clearing a different attribute leaves the bit alone. -/
theorem clearAttr_testBit_ne (c : ConnSync) (eid : ℕ) {cid idx cid' idx' : ℕ}
    (h : (cid', idx') ≠ (cid, idx)) :
    (compStateOf (clearAttributeDirtyC c eid cid' idx') eid cid).dirtyAttributes.testBit idx
      = (compStateOf c eid cid).dirtyAttributes.testBit idx := by
  unfold compStateOf clearAttributeDirtyC
  rw [entStateOf_updEnt_self]
  · by_cases hc : cid = cid'
    · subst hc
      have hidx : idx ≠ idx' := by
        intro he
        exact h (by rw [he])
      rw [compsOf_updComp_self]
      · exact testBit_clearBit_of_ne _ hidx
      · intro cs
        rfl
    · rw [compsOf_updComp_ne _ _ hc]
      intro cs
      rfl
  · intro e
    rfl

/-- Locating a connection after mapping a connId-preserving function over the
connection list: the result is the image of the connection found before. -/
theorem find?_conn_map (conns : List ConnSync) (g : ConnSync → ConnSync)
    (hg : ∀ c, (g c).connId = c.connId) (sid : ℕ) {c' : ConnSync}
    (h : (conns.map g).find? (fun c => c.connId == sid) = some c') :
    ∃ c0, conns.find? (fun c => c.connId == sid) = some c0 ∧
      (c0.connId == sid) = true ∧ c' = g c0 := by
  rw [find?_map_eq] at h
  · cases hf : conns.find? (fun c => c.connId == sid) with
    | none =>
      rw [hf] at h
      exact absurd h (by simp)
    | some c0 =>
      rw [hf] at h
      refine ⟨c0, rfl, by simpa using List.find?_some hf, ?_⟩
      simpa using h.symm
  · intro x
    simp [hg x]

/-- After `emitAndClearAttr` for pair `p`, the sender's dirty bit for `p` is
clear, whatever it was before. -/
theorem emitAndClearAttr_self (sourceId eid : ℕ) (change : Change) (ns : NetState)
    (p : ℕ × ℕ) :
    senderBitClear (emitAndClearAttr sourceId eid change ns p) sourceId eid p.1 p.2 := by
  intro c' h
  simp only [emitAndClearAttr, connOf] at h
  obtain ⟨c0, _, hcid, hc'⟩ := find?_conn_map _ _ (fun c => by
    by_cases hx : (c.connId == sourceId) = true <;>
      simp [hx, clearAttributeDirtyC, updEnt]) _ h
  rw [hc', if_pos hcid]
  exact clearAttr_testBit_self c0 eid p.1 p.2

/-- `emitAndClearAttr` for a different pair does not resurrect the sender's
cleared bit. -/
theorem emitAndClearAttr_pres (sourceId eid : ℕ) (change : Change) (ns : NetState)
    {p p' : ℕ × ℕ} (hne : p' ≠ p)
    (hns : senderBitClear ns sourceId eid p.1 p.2) :
    senderBitClear (emitAndClearAttr sourceId eid change ns p') sourceId eid p.1 p.2 := by
  have hne' : (p'.1, p'.2) ≠ (p.1, p.2) := by simpa using hne
  intro c' h
  simp only [emitAndClearAttr, connOf] at h
  obtain ⟨c1, hf1, hcid1, hc'⟩ := find?_conn_map _ _ (fun c => by
    by_cases hx : (c.connId == sourceId) = true <;>
      simp [hx, clearAttributeDirtyC, updEnt]) _ h
  rw [hc', if_pos hcid1, clearAttr_testBit_ne _ _ hne']
  by_cases hch : (change == Change.replicate) = true
  · simp only [emitAttributeChanged, hch, if_true] at hf1
    obtain ⟨c0, hf0, _, hc1⟩ := find?_conn_map ns.conns
      (fun c => markAttributeDirtyC c eid p'.1 p'.2) (fun c => rfl) sourceId hf1
    rw [hc1, markAttr_testBit_ne _ _ hne']
    exact hns c0 (by simpa [connOf] using hf0)
  · simp only [Bool.not_eq_true] at hch
    simp only [emitAttributeChanged, hch, Bool.false_eq_true, if_false] at hf1
    exact hns c1 (by simpa [connOf] using hf1)

/-- The echo clear survives the rest of the signalling pass as long as the
remaining pairs differ. -/
theorem foldl_emitClear_pres (sourceId eid : ℕ) (change : Change) (p : ℕ × ℕ) :
    ∀ (l : List (ℕ × ℕ)) (ns : NetState), (∀ q ∈ l, q ≠ p) →
      senderBitClear ns sourceId eid p.1 p.2 →
      senderBitClear (l.foldl (emitAndClearAttr sourceId eid change) ns)
        sourceId eid p.1 p.2
  | [], _, _, hns => hns
  | q :: rest, ns, hl, hns => by
    simp only [List.foldl_cons]
    exact foldl_emitClear_pres sourceId eid change p rest _
      (fun q' hq' => hl q' (List.mem_cons_of_mem _ hq'))
      (emitAndClearAttr_pres sourceId eid change ns (hl q (List.mem_cons_self _ _)) hns)

/-- After the whole signalling pass of `HandleEditAttributes`, the sender's
dirty bit of every pair of the pass is clear. -/
theorem foldl_emitClear_mem (sourceId eid : ℕ) (change : Change) (p : ℕ × ℕ) :
    ∀ (l : List (ℕ × ℕ)) (ns : NetState), p ∈ l →
      senderBitClear (l.foldl (emitAndClearAttr sourceId eid change) ns)
        sourceId eid p.1 p.2 := by
  intro l
  induction l with
  | nil =>
    intro ns h
    exact absurd h (List.not_mem_nil p)
  | cons q rest ih =>
    intro ns hp
    simp only [List.foldl_cons]
    by_cases hmem : p ∈ rest
    · exact ih _ hmem
    · have hpq : p = q := by
        rcases List.mem_cons.mp hp with h | h
        · exact h
        · exact absurd h hmem
      subst hpq
      exact foldl_emitClear_pres sourceId eid change p rest _
        (fun q' hq' hq'p => hmem (hq'p ▸ hq'))
        (emitAndClearAttr_self sourceId eid change ns p)

/-- The echo clear of `HandleEditEntityProperties` unsets the sender's
property flag. -/
theorem entStateOf_clearPropertyChanges (c : ConnSync) (eid : ℕ) :
    (entStateOf (clearPropertyChangesC c eid) eid).hasPropertyChanges = false := by
  unfold clearPropertyChangesC
  rw [entStateOf_updEnt_self]
  intro e
  rfl

/-- The echo clear of `HandleSetEntityParent` unsets the sender's parent
flag. -/
theorem entStateOf_clearParentChange (c : ConnSync) (eid : ℕ) :
    (entStateOf (clearParentChangeC c eid) eid).hasParentChange = false := by
  unfold clearParentChangeC
  rw [entStateOf_updEnt_self]
  intro e
  rfl

/-- `MarkEntityProcessed` wipes every create and dirty flag the sender's
state holds for the entity. -/
theorem entStateOf_markEntityProcessed (c : ConnSync) (eid : ℕ) :
    (entStateOf (markEntityProcessedC c eid) eid).isNew = false ∧
    (entStateOf (markEntityProcessedC c eid) eid).hasPropertyChanges = false ∧
    (entStateOf (markEntityProcessedC c eid) eid).hasParentChange = false ∧
    ∀ cs ∈ (entStateOf (markEntityProcessedC c eid) eid).components,
      cs.isNew = false ∧ cs.dirtyAttributes = 0 := by
  unfold markEntityProcessedC
  rw [entStateOf_updEnt_self]
  · refine ⟨rfl, rfl, rfl, ?_⟩
    intro cs hcs
    simp only [List.mem_map] at hcs
    obtain ⟨cs0, _, hcs0⟩ := hcs
    rw [← hcs0]
    exact ⟨rfl, rfl⟩
  · intro e
    rfl

/-- `find?` skips a prefix in which nothing matches. -/
theorem find?_append_none {α : Type} (p : α → Bool) (l l2 : List α)
    (h : l.find? p = none) : (l ++ l2).find? p = l2.find? p := by
  induction l with
  | nil => rfl
  | cons x rest ih =>
    have hx : p x = false := by
      have := List.find?_eq_none.mp h x (List.mem_cons_self _ _)
      simpa using this
    have hrest : rest.find? p = none := by
      rw [List.find?_eq_none] at h ⊢
      intro y hy
      exact h y (List.mem_cons_of_mem _ hy)
    simp [List.find?_cons, hx, ih hrest]

/-- Replacing the matching entity in place leaves it findable. -/
theorem find?_map_replace (s : Scene) (e : SEntity)
    (h : (s.find? (fun x => x.id == e.id)).isSome = true) :
    (s.map (fun x => if x.id == e.id then e else x)).find? (fun x => x.id == e.id)
      = some e := by
  induction s with
  | nil => simp [List.find?] at h
  | cons x rest ih =>
    by_cases hx : (x.id == e.id) = true
    · have hxx : x.id = e.id := by simpa using hx
      have hmap : (x :: rest).map (fun y => if y.id == e.id then e else y)
          = e :: rest.map (fun y => if y.id == e.id then e else y) := by
        simp [hxx]
      rw [hmap]
      simp [List.find?_cons]
    · simp only [Bool.not_eq_true] at hx
      have hxx : ¬(x.id = e.id) := by simpa using hx
      simp only [List.find?_cons, hx] at h
      have hmap : (x :: rest).map (fun y => if y.id == e.id then e else y)
          = x :: rest.map (fun y => if y.id == e.id then e else y) := by
        simp [hxx]
      rw [hmap, List.find?_cons]
      simp only [hx]
      exact ih h

/-- Looking up the entity just written by `scenePut`. -/
theorem sceneGet_scenePut_self (s : Scene) (e : SEntity) :
    sceneGet (scenePut s e) e.id = some e := by
  unfold sceneGet scenePut
  by_cases h : (s.find? (fun x => x.id == e.id)).isSome = true
  · rw [if_pos h]
    exact find?_map_replace s e h
  · rw [if_neg h]
    have h0 : s.find? (fun x => x.id == e.id) = none := by
      cases hc : s.find? (fun x => x.id == e.id)
      · rfl
      · rw [hc] at h
        simp at h
    rw [find?_append_none _ _ _ h0]
    simp [List.find?_cons]

/-- A found entity carries the requested id. -/
theorem sceneGet_id {s : Scene} {eid : ℕ} {e : SEntity}
    (h : sceneGet s eid = some e) : e.id = eid := by
  unfold sceneGet at h
  simpa using List.find?_some h

/-- Filtering out a key makes it unfindable. -/
theorem find?_filter_bne {α : Type} (key : α → ℕ) (l : List α) (id : ℕ) :
    (l.filter (fun x => key x != id)).find? (fun x => key x == id) = none := by
  induction l with
  | nil => rfl
  | cons x rest ih =>
    by_cases hx : (key x == id) = true
    · simp [List.filter_cons, bne, hx, ih]
    · simp only [Bool.not_eq_true] at hx
      simp [List.filter_cons, bne, hx, List.find?_cons, ih]

/-- `Scene::RemoveEntity` removes the entity. -/
theorem sceneGet_sceneRemove_self (s : Scene) (id : ℕ) :
    sceneGet (sceneRemove s id) id = none := by
  unfold sceneGet sceneRemove
  exact find?_filter_bne SEntity.id s id

/-- `Entity::RemoveComponent` removes the component. -/
theorem compGet_compRemove_self (e : SEntity) (cid : ℕ) :
    compGet (compRemove e cid) cid = none := by
  unfold compGet compRemove
  exact find?_filter_bne SComp.id e.comps cid

/-- A filter never makes the unfindable findable. -/
theorem find?_filter_none {α : Type} (p q : α → Bool) (l : List α)
    (h : l.find? p = none) : (l.filter q).find? p = none := by
  rw [List.find?_eq_none] at h ⊢
  intro x hx
  exact h x (List.mem_of_mem_filter hx)

/-- Removing one component keeps the other removals in effect. -/
theorem compGet_compRemove_none (e : SEntity) (cid cid' : ℕ)
    (h : compGet e cid = none) : compGet (compRemove e cid') cid = none := by
  unfold compGet at h
  unfold compGet compRemove
  exact find?_filter_none _ _ _ h

/-- `Entity::CreateComponentWithId` appends the component, leaving the entity
in place. -/
theorem sceneGet_addComp (s : Scene) (eid : ℕ) (c : SComp) {e : SEntity}
    (h : sceneGet s eid = some e) :
    sceneGet (addCompToEntity s eid c) eid
      = some { e with comps := e.comps ++ [c] } := by
  unfold addCompToEntity
  rw [h]
  have hid0 : e.id = eid := sceneGet_id h
  have hid : ({ e with comps := e.comps ++ [c] } : SEntity).id = eid := hid0
  rw [← hid]
  exact sceneGet_scenePut_self _ _

/-- A clean component list never makes `processCompItems` throw. -/
theorem processCompItems_noErr (isServer : Bool) (sourceId eid : ℕ) :
    ∀ (items : List CompItem), CompItem.err ∉ items →
      ∀ (n : ℕ) (scene : Scene) (conns : List ConnSync),
        (processCompItems isServer sourceId eid items n scene conns).2.2.2 = false
  | [], _, _, _, _ => rfl
  | CompItem.err :: _, h, _, _, _ => absurd (List.mem_cons_self _ _) h
  | CompItem.ok d :: rest, h, n, scene, conns => by
    simp only [processCompItems]
    exact processCompItems_noErr isServer sourceId eid rest
      (fun hm => h (List.mem_cons_of_mem _ hm)) _ _ _

/-- An `err` item after a clean prefix makes `processCompItems` throw, with
exactly the prefix's components created. -/
theorem processCompItems_err (isServer : Bool) (sourceId eid : ℕ)
    (post : List CompItem) :
    ∀ (pre : List CompItem), CompItem.err ∉ pre →
      ∀ (n : ℕ) (scene : Scene) (conns : List ConnSync),
        (processCompItems isServer sourceId eid (pre ++ CompItem.err :: post)
            n scene conns).2.2.2 = true ∧
        (processCompItems isServer sourceId eid (pre ++ CompItem.err :: post)
            n scene conns).2.2.1.length = pre.length
  | [], _, _, _, _ => ⟨rfl, rfl⟩
  | CompItem.err :: _, h, _, _, _ => absurd (List.mem_cons_self _ _) h
  | CompItem.ok d :: rest, h, n, scene, conns => by
    simp only [List.cons_append, processCompItems]
    have ih := processCompItems_err isServer sourceId eid post rest
      (fun hm => h (List.mem_cons_of_mem _ hm)) (n + 1)
      (addCompToEntity scene eid ⟨if isServer then n else d.compId, d.typeId, d.attrs⟩)
      (conns.map (fun c =>
        if c.connId == sourceId
        then markComponentProcessedC c eid (if isServer then n else d.compId) else c))
    exact ⟨ih.1, by simpa using ih.2⟩

/-- `processCompItems` keeps the target entity in the scene. -/
theorem processCompItems_entity (isServer : Bool) (sourceId eid : ℕ) :
    ∀ (items : List CompItem) (n : ℕ) (scene : Scene) (conns : List ConnSync)
      (e : SEntity), sceneGet scene eid = some e →
      ∃ e', sceneGet (processCompItems isServer sourceId eid items n scene conns).1 eid
        = some e'
  | [], _, _, _, e, h => ⟨e, h⟩
  | CompItem.err :: _, _, _, _, e, h => ⟨e, h⟩
  | CompItem.ok d :: rest, n, scene, conns, e, h => by
    simp only [processCompItems]
    exact processCompItems_entity isServer sourceId eid rest (n + 1) _ _ _
      (sceneGet_addComp scene eid _ h)

/-- Mapping a connId- and unacked-map-preserving function over the
connections leaves `unackedAt` unchanged. -/
theorem unackedAt_map (g : ConnSync → ConnSync)
    (hg1 : ∀ c, (g c).connId = c.connId)
    (hg2 : ∀ c, (g c).unackedIdsToRealIds = c.unackedIdsToRealIds)
    (conns : List ConnSync) (sid : ℕ) :
    unackedAt (conns.map g) sid = unackedAt conns sid := by
  unfold unackedAt
  rw [find?_map_eq]
  · cases h : conns.find? (fun c => c.connId == sid) <;> simp [hg2]
  · intro x
    simp [hg1 x]

/-- `processCompItems` never touches the unacked-id maps. -/
theorem processCompItems_unackedAt (isServer : Bool) (sourceId eid sid : ℕ) :
    ∀ (items : List CompItem) (n : ℕ) (scene : Scene) (conns : List ConnSync),
      unackedAt (processCompItems isServer sourceId eid items n scene conns).2.1 sid
        = unackedAt conns sid
  | [], _, _, _ => rfl
  | CompItem.err :: _, _, _, _ => rfl
  | CompItem.ok d :: rest, n, scene, conns => by
    simp only [processCompItems]
    rw [processCompItems_unackedAt isServer sourceId eid sid rest (n + 1) _ _]
    exact unackedAt_map _
      (fun c => by
        by_cases hx : (c.connId == sourceId) = true <;>
          simp [hx, markComponentProcessedC, updEnt])
      (fun c => by
        by_cases hx : (c.connId == sourceId) = true <;>
          simp [hx, markComponentProcessedC, updEnt]) _ _

/-- The `ComponentChanged` signalling pass never touches the unacked-id
maps. -/
theorem foldl_emitComp_unackedAt (eid : ℕ) (change : Change) (sid : ℕ) :
    ∀ (ids : List ℕ) (ns : NetState),
      unackedAt ((ids.foldl (fun acc cid => emitComponentAdded acc eid cid change)
        ns)).conns sid = unackedAt ns.conns sid
  | [], _ => rfl
  | cid :: rest, ns => by
    simp only [List.foldl_cons]
    rw [foldl_emitComp_unackedAt eid change sid rest]
    unfold emitComponentAdded
    by_cases hch : (change == Change.replicate) = true
    · rw [if_pos hch]
      exact unackedAt_map (fun c => markComponentDirtyC c eid cid)
        (fun c => rfl) (fun c => rfl) ns.conns sid
    · rw [if_neg hch]

/-- The rollback fold of `HandleCreateComponents`: the target entity survives
and every listed component (plus everything already absent) is gone. -/
theorem rollbackFold_invariant (eid : ℕ) :
    ∀ (ids : List ℕ) (s : Scene) (e0 : SEntity), sceneGet s eid = some e0 →
      ∃ e1, sceneGet (ids.foldl (fun s cid =>
          match sceneGet s eid with
          | some e => scenePut s (compRemove e cid)
          | none => s) s) eid = some e1 ∧
        (∀ cid ∈ ids, compGet e1 cid = none) ∧
        (∀ cid, compGet e0 cid = none → compGet e1 cid = none)
  | [], s, e0, h => ⟨e0, h, by simp, fun _ hc => hc⟩
  | cid :: rest, s, e0, h => by
    simp only [List.foldl_cons]
    have hstep : (match sceneGet s eid with
        | some e => scenePut s (compRemove e cid)
        | none => s) = scenePut s (compRemove e0 cid) := by rw [h]
    rw [hstep]
    have hid0 : e0.id = eid := sceneGet_id h
    have hid : (compRemove e0 cid).id = eid := hid0
    have hget : sceneGet (scenePut s (compRemove e0 cid)) eid
        = some (compRemove e0 cid) := by
      rw [← hid]
      exact sceneGet_scenePut_self _ _
    obtain ⟨e1, hg1, hall, hpres⟩ := rollbackFold_invariant eid rest _ _ hget
    refine ⟨e1, hg1, ?_, ?_⟩
    · intro c hc
      rcases List.mem_cons.mp hc with hceq | hcm
      · subst hceq
        exact hpres c (compGet_compRemove_self e0 c)
      · exact hall c hcm
    · intro c hc
      exact hpres c (compGet_compRemove_none e0 c cid hc)

/-- C1: echo suppression.  (1) `HandleEditAttributes` ends with the sender's
dirty bit clear for every (component, attribute) pair it applied, although
the change signal first marked the bit in every connection's state;
(2) `HandleEditEntityProperties` ends with the sender's `hasPropertyChanges`
clear; (3) `HandleSetEntityParent` ends with the sender's `hasParentChange`
clear for the (translated) entity; (4) a successful `HandleCreateEntity`
leaves the created entity marked processed in the sender's sync state: no
`isNew`, property, parent or attribute dirty data remains.  The next
`ProcessSyncState` tick therefore has nothing of this change to send back to
the sender. -/
theorem c1_echo_suppression :
    (∀ (ns : NetState) (sourceId : ℕ) (m : EditAttrsMsg) (e : SEntity),
      validateAction ns sourceId = true → ns.allowModify = true →
      sceneGet ns.scene m.entityID = some e →
      ∀ p ∈ (applyEdits e m.comps).2.1,
        senderBitClear (handleEditAttributes ns sourceId m) sourceId
          m.entityID p.1 p.2) ∧
    (∀ (ns : NetState) (sourceId : ℕ) (m : EditPropsMsg) (e : SEntity),
      validateAction ns sourceId = true → ns.allowModify = true →
      sceneGet ns.scene m.entityID = some e →
      ∀ c', connOf (handleEditEntityProperties ns sourceId m) sourceId = some c' →
        (entStateOf c' m.entityID).hasPropertyChanges = false) ∧
    (∀ (ns : NetState) (sourceId : ℕ) (m : SetParentMsg) (src : ConnSync)
      (entityID parentEntityID : ℕ) (e : SEntity),
      connOf ns sourceId = some src →
      (if ns.isServer && inUnackedRange m.entityID
        then lookupById src.unackedIdsToRealIds m.entityID
        else some m.entityID) = some entityID →
      (if ns.isServer && inUnackedRange m.parentEntityID
        then lookupById src.unackedIdsToRealIds m.parentEntityID
        else some m.parentEntityID) = some parentEntityID →
      validateAction ns sourceId = true →
      sceneGet ns.scene entityID = some e →
      ns.allowModify = true →
      (parentEntityID != 0 && !(sceneGet ns.scene parentEntityID).isSome) = false →
      ∀ c', connOf (handleSetEntityParent ns sourceId m) sourceId = some c' →
        (entStateOf c' entityID).hasParentChange = false) ∧
    (∀ (ns : NetState) (sourceId nextFreeId nextCompId : ℕ) (m : CreateEntityMsg)
      (src : ConnSync),
      connOf ns sourceId = some src →
      ns.allowModify = true →
      validateAction ns sourceId = true →
      CompItem.err ∉ m.comps →
      (ns.isServer = true → sceneGet ns.scene nextFreeId = none) →
      (handleCreateEntity ns sourceId nextFreeId nextCompId m).thrown = false ∧
      ∀ c', connOf (handleCreateEntity ns sourceId nextFreeId nextCompId m).ns
          sourceId = some c' →
        (entStateOf c' (if ns.isServer then nextFreeId else m.entityID)).isNew
            = false ∧
        (entStateOf c'
            (if ns.isServer then nextFreeId else m.entityID)).hasPropertyChanges
            = false ∧
        (entStateOf c'
            (if ns.isServer then nextFreeId else m.entityID)).hasParentChange
            = false ∧
        ∀ cs ∈ (entStateOf c'
            (if ns.isServer then nextFreeId else m.entityID)).components,
          cs.isNew = false ∧ cs.dirtyAttributes = 0) := by
  refine ⟨?_, ?_, ?_, ?_⟩
  · intro ns sourceId m e hval hallow hget p hp
    unfold handleEditAttributes
    rw [hval, hget]
    simp only [hallow, Bool.not_true, Bool.false_eq_true, if_false]
    exact foldl_emitClear_mem sourceId m.entityID _ p _ _ hp
  · intro ns sourceId m e hval hallow hget c' h
    unfold handleEditEntityProperties at h
    rw [hval, hget] at h
    simp only [hallow, Bool.not_true, Bool.false_eq_true, if_false, connOf] at h
    obtain ⟨c0, _, hcid, hc'⟩ := find?_conn_map _ _ (fun c => by
      by_cases hx : (c.connId == sourceId) = true <;>
        simp [hx, clearPropertyChangesC, updEnt]) _ h
    rw [hc', if_pos hcid]
    exact entStateOf_clearPropertyChanges c0 m.entityID
  · intro ns sourceId m src entityID parentEntityID e hsrc hE hP hval hget hallow
      hok c' h
    unfold handleSetEntityParent at h
    rw [hsrc] at h
    simp only [hE, hP, hval, hget, hallow, hok, Bool.not_true, Bool.false_eq_true,
      if_false, connOf] at h
    obtain ⟨c0, _, hcid, hc'⟩ := find?_conn_map _ _ (fun c => by
      by_cases hx : (c.connId == sourceId) = true <;>
        simp [hx, clearParentChangeC, updEnt]) _ h
    rw [hc', if_pos hcid]
    exact entStateOf_clearParentChange c0 entityID
  · intro ns sourceId nextFreeId nextCompId m src hsrc hallow hval hnoerr hfree
    have hfree0 : sceneGet
        (if (!ns.isServer && (sceneGet ns.scene m.entityID).isSome) = true
          then sceneRemove ns.scene m.entityID else ns.scene)
        (if ns.isServer = true then nextFreeId else m.entityID) = none := by
      by_cases hs : ns.isServer = true
      · simp only [hs, Bool.not_true, Bool.false_and, Bool.false_eq_true, if_false,
          if_true]
        exact hfree hs
      · simp only [Bool.not_eq_true] at hs
        simp only [hs, Bool.not_false, Bool.true_and, Bool.false_eq_true, if_false]
        by_cases he : (sceneGet ns.scene m.entityID).isSome = true
        · simp only [he, if_true]
          exact sceneGet_sceneRemove_self _ _
        · simp only [Bool.not_eq_true] at he
          simp only [he, Bool.false_eq_true, if_false]
          cases hg : sceneGet ns.scene m.entityID
          · rfl
          · rw [hg] at he
            simp at he
    unfold handleCreateEntity
    rw [hsrc]
    simp only [hallow, hval, Bool.not_true, Bool.false_eq_true, if_false, hfree0,
      Option.isSome_none, processCompItems_noErr ns.isServer sourceId _ _ hnoerr]
    refine ⟨by trivial, ?_⟩
    intro c' h
    simp only [connOf] at h
    obtain ⟨c0, _, hcid, hc'⟩ := find?_conn_map _ _ (fun c => by
      by_cases hx : (c.connId == sourceId) = true <;>
        simp [hx, markEntityProcessedC, updEnt]) _ h
    rw [hc', if_pos hcid]
    exact entStateOf_markEntityProcessed c0 _

/-- C1 witness: on the C1 fixture, client 1's edit of attribute 0 of
component 2 of entity 5 leaves client 1's sync state with that dirty bit
clear. -/
theorem c1_witness :
    validateAction c1NS 1 = true ∧ c1NS.allowModify = true ∧
    sceneGet c1NS.scene c1Msg.entityID
      = some ⟨5, false, 0, [⟨2, 9, [10, 11]⟩]⟩ ∧
    (2, 0) ∈ (applyEdits (⟨5, false, 0, [⟨2, 9, [10, 11]⟩]⟩ : SEntity)
      c1Msg.comps).2.1 ∧
    senderBitClear (handleEditAttributes c1NS 1 c1Msg) 1 c1Msg.entityID 2 0 :=
  ⟨by decide, by decide, by decide, by decide,
    c1_echo_suppression.1 c1NS 1 c1Msg ⟨5, false, 0, [⟨2, 9, [10, 11]⟩]⟩
      (by decide) (by decide) (by decide) (2, 0) (by decide)⟩

/-- The unacked-map append of `HandleCreateEntity`, seen through
`unackedAt`. -/
theorem unackedAt_store (conns : List ConnSync) (sid : ℕ) (pair : ℕ × ℕ)
    {src : ConnSync} (h : conns.find? (fun c => c.connId == sid) = some src) :
    unackedAt (conns.map (fun c =>
      if c.connId == sid then
        { c with unackedIdsToRealIds := c.unackedIdsToRealIds ++ [pair] }
      else c)) sid = some (src.unackedIdsToRealIds ++ [pair]) := by
  unfold unackedAt
  rw [find?_map_eq]
  · rw [h]
    have hcid : src.connId = sid := by simpa using List.find?_some h
    simp [hcid]
  · intro x
    by_cases hx : (x.connId == sid) = true <;> simp [hx]

/-- Mapping an ite of a connId- and unacked-map-preserving function leaves
`unackedAt` unchanged. -/
theorem unackedAt_map_ite (conns : List ConnSync) (sid sid2 : ℕ)
    (g : ConnSync → ConnSync)
    (hg1 : ∀ c, (g c).connId = c.connId)
    (hg2 : ∀ c, (g c).unackedIdsToRealIds = c.unackedIdsToRealIds) :
    unackedAt (conns.map (fun c => if c.connId == sid2 then g c else c)) sid
      = unackedAt conns sid :=
  unackedAt_map _
    (fun c => by by_cases hx : (c.connId == sid2) = true <;> simp [hx, hg1])
    (fun c => by by_cases hx : (c.connId == sid2) = true <;> simp [hx, hg2])
    conns sid

/-- C2 counterexample: the claim quantifies over every message, but
`HandleEditEntityProperties` uses the wire id untranslated.  On a server
whose sender map holds `FIRST_UNACKED_ID + 1 ↦ 7`, a properties edit for the
unacked id is dropped with a warning (the lookup never happens), while the
same edit for the real id 7 is applied. -/
theorem c2_counterexample :
    lookupById (⟨1, true, [], [(FIRST_UNACKED_ID + 1, 7)]⟩ : ConnSync).unackedIdsToRealIds
      (FIRST_UNACKED_ID + 1) = some 7 ∧
    inUnackedRange (FIRST_UNACKED_ID + 1) = true ∧
    handleEditEntityProperties c2NS 1 ⟨FIRST_UNACKED_ID + 1, true⟩
      = { c2NS with warnings := c2NS.warnings + 1 } ∧
    handleEditEntityProperties c2NS 1 ⟨7, true⟩
      ≠ { c2NS with warnings := c2NS.warnings + 1 } := by decide

/-- C2 (amended to the handlers that do translate): in
`HandleSetEntityParent` the server translates an unacked entity id through
the sender's `unackedIdsToRealIds` before applying the mutation — the result
equals handling the same message with the real id — and drops the message
with a warning when the map has no entry; and `HandleCreateEntity` records
the `senderEntityID | FIRST_UNACKED_ID ↦ assigned id` entry in the sender's
map, where it survives to the end of the handler. -/
theorem c2_unacked_translation :
    (∀ (ns : NetState) (sourceId : ℕ) (m : SetParentMsg) (src : ConnSync) (r : ℕ),
      connOf ns sourceId = some src →
      ns.isServer = true →
      inUnackedRange m.entityID = true →
      lookupById src.unackedIdsToRealIds m.entityID = some r →
      inUnackedRange r = false →
      handleSetEntityParent ns sourceId m
        = handleSetEntityParent ns sourceId ⟨r, m.parentEntityID⟩) ∧
    (∀ (ns : NetState) (sourceId : ℕ) (m : SetParentMsg) (src : ConnSync),
      connOf ns sourceId = some src →
      ns.isServer = true →
      inUnackedRange m.entityID = true →
      lookupById src.unackedIdsToRealIds m.entityID = none →
      handleSetEntityParent ns sourceId m
        = { ns with warnings := ns.warnings + 1 }) ∧
    (∀ (ns : NetState) (sourceId nextFreeId nextCompId : ℕ) (m : CreateEntityMsg)
      (src : ConnSync),
      connOf ns sourceId = some src →
      ns.isServer = true →
      ns.allowModify = true →
      validateAction ns sourceId = true →
      unackedAt (handleCreateEntity ns sourceId nextFreeId nextCompId m).ns.conns
          sourceId
        = some (src.unackedIdsToRealIds
            ++ [(m.entityID ||| FIRST_UNACKED_ID, nextFreeId)])) := by
  refine ⟨?_, ?_, ?_⟩
  · intro ns sourceId m src r hsrc hs hun hlook hr
    unfold handleSetEntityParent
    rw [hsrc]
    simp only [hs, hun, hlook, hr, Bool.true_and, Bool.and_self, if_true,
      Bool.false_eq_true, if_false]
  · intro ns sourceId m src hsrc hs hun hlook
    unfold handleSetEntityParent
    rw [hsrc]
    simp only [hs, hun, hlook, Bool.true_and, Bool.and_self, if_true]
  · intro ns sourceId nf nc m src hsrc hs hallow hval
    have hsrc' : List.find? (fun c => c.connId == sourceId) ns.conns = some src :=
      hsrc
    unfold handleCreateEntity
    rw [hsrc]
    simp only [hallow, hval, hs, Bool.not_true, Bool.false_and, Bool.false_eq_true,
      if_false, if_true]
    split
    · exact unackedAt_store ns.conns sourceId _ hsrc'
    · repeat' split
      all_goals dsimp only
      any_goals (rw [processCompItems_unackedAt, unackedAt_map_ite _ _ _ (fun c => markEntityProcessedC c nf) (fun c => rfl) (fun c => rfl)]; exact unackedAt_store ns.conns sourceId _ hsrc')
      any_goals (rw [unackedAt_map_ite _ _ _ (fun c => markEntityProcessedC c nf) (fun c => rfl) (fun c => rfl), foldl_emitComp_unackedAt]; unfold emitEntityCreated; simp only [beq_self_eq_true, if_true]; rw [unackedAt_map (fun c => updEnt c nf (fun e => e)) (fun c => rfl) (fun c => rfl), processCompItems_unackedAt, unackedAt_map_ite _ _ _ (fun c => markEntityProcessedC c nf) (fun c => rfl) (fun c => rfl)]; exact unackedAt_store ns.conns sourceId _ hsrc')

/-- C2 witness: on the C2 fixture, a `SetEntityParent` for the unacked id
`FIRST_UNACKED_ID + 1` is handled exactly like one for the mapped real
id 7. -/
theorem c2_witness :
    connOf c2NS 1 = some ⟨1, true, [], [(FIRST_UNACKED_ID + 1, 7)]⟩ ∧
    c2NS.isServer = true ∧
    inUnackedRange (FIRST_UNACKED_ID + 1) = true ∧
    lookupById [(FIRST_UNACKED_ID + 1, 7)] (FIRST_UNACKED_ID + 1) = some 7 ∧
    inUnackedRange 7 = false ∧
    handleSetEntityParent c2NS 1 ⟨FIRST_UNACKED_ID + 1, 0⟩
      = handleSetEntityParent c2NS 1 ⟨7, 0⟩ :=
  ⟨by decide, by decide, by decide, by decide, by decide,
    c2_unacked_translation.1 c2NS 1 ⟨FIRST_UNACKED_ID + 1, 0⟩
      ⟨1, true, [], [(FIRST_UNACKED_ID + 1, 7)]⟩ 7
      (by decide) (by decide) (by decide) (by decide) (by decide)⟩

/-- C9: malformed-bitstream atomicity.  (1) A codec throw while parsing a
`CreateEntity` message makes the handler remove the partially created entity
with change kind `Disconnected` (the rollback call is recorded and the
entity is gone from the scene) and rethrow; (2) a throw while parsing a
`CreateComponents` message removes every component created so far by that
message (one `Disconnected` removal per created component, each gone from
the entity) and rethrows; (3) `HandleNetworkMessage` reacts to the rethrow
from either handler by disconnecting the offending connection. -/
theorem c9_malformed_rollback :
    (∀ (ns : NetState) (sourceId nextFreeId nextCompId : ℕ) (m : CreateEntityMsg)
      (src : ConnSync) (pre post : List CompItem),
      connOf ns sourceId = some src →
      ns.allowModify = true →
      validateAction ns sourceId = true →
      m.comps = pre ++ CompItem.err :: post →
      CompItem.err ∉ pre →
      (ns.isServer = true → sceneGet ns.scene nextFreeId = none) →
      (handleCreateEntity ns sourceId nextFreeId nextCompId m).thrown = true ∧
      (handleCreateEntity ns sourceId nextFreeId nextCompId m).removals
        = [(if ns.isServer then nextFreeId else m.entityID, Change.disconnected)] ∧
      sceneGet (handleCreateEntity ns sourceId nextFreeId nextCompId m).ns.scene
        (if ns.isServer then nextFreeId else m.entityID) = none) ∧
    (∀ (ns : NetState) (sourceId nextCompId : ℕ) (m : CreateCompsMsg)
      (src : ConnSync) (e : SEntity) (pre post : List CompItem),
      connOf ns sourceId = some src →
      validateAction ns sourceId = true →
      sceneGet ns.scene m.entityID = some e →
      ns.allowModify = true →
      m.comps = pre ++ CompItem.err :: post →
      CompItem.err ∉ pre →
      (handleCreateComponents ns sourceId nextCompId m).thrown = true ∧
      (handleCreateComponents ns sourceId nextCompId m).compRemovals.length
        = pre.length ∧
      (∀ x ∈ (handleCreateComponents ns sourceId nextCompId m).compRemovals,
        x.2 = Change.disconnected) ∧
      (∀ x ∈ (handleCreateComponents ns sourceId nextCompId m).compRemovals,
        ∀ e', sceneGet (handleCreateComponents ns sourceId nextCompId m).ns.scene
            m.entityID = some e' →
          compGet e' x.1 = none)) ∧
    ((handleNetworkMessage 110 true).disconnected = true ∧
      (handleNetworkMessage 111 true).disconnected = true) := by
  refine ⟨?_, ?_, by decide⟩
  · intro ns sourceId nf nc m src pre post hsrc hallow hval hcomps hpre hfree
    have hfree0 : sceneGet
        (if (!ns.isServer && (sceneGet ns.scene m.entityID).isSome) = true
          then sceneRemove ns.scene m.entityID else ns.scene)
        (if ns.isServer = true then nf else m.entityID) = none := by
      by_cases hs : ns.isServer = true
      · simp only [hs, Bool.not_true, Bool.false_and, Bool.false_eq_true, if_false,
          if_true]
        exact hfree hs
      · simp only [Bool.not_eq_true] at hs
        simp only [hs, Bool.not_false, Bool.true_and, Bool.false_eq_true, if_false]
        by_cases he : (sceneGet ns.scene m.entityID).isSome = true
        · simp only [he, if_true]
          exact sceneGet_sceneRemove_self _ _
        · simp only [Bool.not_eq_true] at he
          simp only [he, Bool.false_eq_true, if_false]
          cases hg : sceneGet ns.scene m.entityID
          · rfl
          · rw [hg] at he
            simp at he
    have herr1 : ∀ (eid n : ℕ) (scene : Scene) (conns : List ConnSync),
        (processCompItems ns.isServer sourceId eid (pre ++ CompItem.err :: post)
          n scene conns).2.2.2 = true :=
      fun eid n s c =>
        (processCompItems_err ns.isServer sourceId eid post pre hpre n s c).1
    unfold handleCreateEntity
    rw [hsrc]
    simp only [hallow, hval, Bool.not_true, Bool.false_eq_true, if_false, hfree0,
      Option.isSome_none, hcomps, herr1, if_true]
    exact ⟨by trivial, by trivial, sceneGet_sceneRemove_self _ _⟩
  · intro ns sourceId nc m src e pre post hsrc hval hget hallow hcomps hpre
    have herr1 : ∀ (n : ℕ) (scene : Scene) (conns : List ConnSync),
        (processCompItems ns.isServer sourceId m.entityID
          (pre ++ CompItem.err :: post) n scene conns).2.2.2 = true :=
      fun n s c =>
        (processCompItems_err ns.isServer sourceId m.entityID post pre hpre n s c).1
    have herr2 : ∀ (n : ℕ) (scene : Scene) (conns : List ConnSync),
        (processCompItems ns.isServer sourceId m.entityID
          (pre ++ CompItem.err :: post) n scene conns).2.2.1.length = pre.length :=
      fun n s c =>
        (processCompItems_err ns.isServer sourceId m.entityID post pre hpre n s c).2
    obtain ⟨e1, hScene⟩ := processCompItems_entity ns.isServer sourceId m.entityID
      (pre ++ CompItem.err :: post) nc ns.scene ns.conns e hget
    obtain ⟨eFin, hgFin, hall, _⟩ := rollbackFold_invariant m.entityID
      (processCompItems ns.isServer sourceId m.entityID (pre ++ CompItem.err :: post)
        nc ns.scene ns.conns).2.2.1 _ _ hScene
    unfold handleCreateComponents
    rw [hsrc]
    simp only [hval, hget, hallow, Bool.not_true, Bool.false_eq_true, if_false,
      hcomps, herr1, if_true]
    refine ⟨by trivial, ?_, ?_, ?_⟩
    · simp only [List.length_map, herr2]
    · intro x hx
      simp only [List.mem_map] at hx
      obtain ⟨cid, _, rfl⟩ := hx
      rfl
    · intro x hx e' hge'
      simp only [List.mem_map] at hx
      obtain ⟨cid, hcid, rfl⟩ := hx
      have he' : some eFin = some e' := hgFin.symm.trans hge'
      have he'' : eFin = e' := by injection he'
      rw [← he'']
      exact hall cid hcid

/-- C9 witness: on the C9 fixture, a `CreateEntity` whose single component
item throws leaves the scene without the assigned entity 12, records the
`RemoveEntity(Disconnected)` rollback and rethrows. -/
theorem c9_witness :
    connOf c9NS 1 = some ⟨1, true, [], []⟩ ∧
    c9NS.allowModify = true ∧
    validateAction c9NS 1 = true ∧
    c9EMsg.comps = [] ++ CompItem.err :: [] ∧
    CompItem.err ∉ ([] : List CompItem) ∧
    (c9NS.isServer = true → sceneGet c9NS.scene 12 = none) ∧
    (handleCreateEntity c9NS 1 12 20 c9EMsg).thrown = true ∧
    (handleCreateEntity c9NS 1 12 20 c9EMsg).removals
      = [(if c9NS.isServer then 12 else c9EMsg.entityID, Change.disconnected)] ∧
    sceneGet (handleCreateEntity c9NS 1 12 20 c9EMsg).ns.scene
      (if c9NS.isServer then 12 else c9EMsg.entityID) = none :=
  have h := c9_malformed_rollback.1 c9NS 1 12 20 c9EMsg ⟨1, true, [], []⟩ [] []
    (by decide) (by decide) (by decide) (by decide) (by decide) (fun _ => by decide)
  ⟨by decide, by decide, by decide, by decide, by decide, fun _ => by decide,
    h.1, h.2.1, h.2.2⟩

/-- C7 witness: server receives `execType = Server ||| Peers = 6` from
connection 1; connections 2 (authenticated) is queued the localized action,
connection 1 keeps its empty queue, and the action runs locally. -/
theorem c7_witness :
    ((6 &&& 1 ≠ 0 ∨ 6 &&& 2 ≠ 0) ∧ 6 &&& 4 ≠ 0 ∧
      (⟨2, true, []⟩ : ActConn).authenticated = true ∧ (2 : ℕ) ≠ 1 ∧ (1 : ℕ) = 1) ∧
    (handleEntityAction true true [⟨1, true, []⟩, ⟨2, true, []⟩] 1
        ⟨5, 6, 0, []⟩).executedLocally = true ∧
    (⟨2, true, [⟨5, 1, 0, []⟩]⟩ : ActConn) ∈
      (handleEntityAction true true [⟨1, true, []⟩, ⟨2, true, []⟩] 1 ⟨5, 6, 0, []⟩).conns ∧
    (⟨1, true, []⟩ : ActConn) ∈
      (handleEntityAction true true [⟨1, true, []⟩, ⟨2, true, []⟩] 1 ⟨5, 6, 0, []⟩).conns := by
  refine ⟨by decide, ?_, ?_, ?_⟩
  · exact (c7_entity_action_fan_out [⟨1, true, []⟩, ⟨2, true, []⟩] 1 ⟨5, 6, 0, []⟩).1
      (Or.inr (by decide))
  · exact ((c7_entity_action_fan_out [⟨1, true, []⟩, ⟨2, true, []⟩] 1 ⟨5, 6, 0, []⟩).2
      (by decide)).1 ⟨2, true, []⟩ (by simp) rfl (by decide)
  · exact ((c7_entity_action_fan_out [⟨1, true, []⟩, ⟨2, true, []⟩] 1 ⟨5, 6, 0, []⟩).2
      (by decide)).2 ⟨1, true, []⟩ (by simp) rfl

end Tundra
